import Mathlib

/-!
# Train booking server: seat allocation engine

A shallow embedding of `server/server.go`: the `User`, `Section` and `server`
records and the five operations `PurchaseTicket`, `GetReceipt`, `ViewSeats`,
`RemoveUser` and `ModifySeat`, followed by the properties proved about them.

Modelling conventions.

* A Go map is an association list read with `mget`, written with `mset` and
  cleared with `mdel`; a pointer stored in a map is the record itself, and a
  write through the pointer is a write back into the map.
* `range` over a map visits every key once in an order Go leaves unspecified:
  the operation takes that order as an argument (`order`).
* `uuid.New().String()` is the argument `ticketID`.
* A returned `error` is `Option String` (`none` is `nil`); an operation that
  can dereference a nil `*Section` returns `Option`, `none` being the panic.
* `int32` seats are integers. The only arithmetic is `seat + 1` with
  `seat <= MaxSeats`; `NewServer` fixes `MaxSeats = 10` and nothing changes it,
  so no operation overflows.
* The mutex and the `log.Printf` calls carry no state and are left out.
-/

namespace TrainBooking

/-! ## Go maps -/

/-- Map read `v, ok := m[k]`. -/
def mget {κ ν : Type} [DecidableEq κ] : List (κ × ν) → κ → Option ν
  | [], _ => none
  | (k', v) :: rest, k => if k' = k then some v else mget rest k

/-- Map write `m[k] = v`: an existing entry is overwritten in place. -/
def mset {κ ν : Type} [DecidableEq κ] : List (κ × ν) → κ → ν → List (κ × ν)
  | [], k, v => [(k, v)]
  | (k', v') :: rest, k, v =>
    if k' = k then (k, v) :: rest else (k', v') :: mset rest k v

/-- Map removal `delete(m, k)`. -/
def mdel {κ ν : Type} [DecidableEq κ] : List (κ × ν) → κ → List (κ × ν)
  | [], _ => []
  | (k', v') :: rest, k =>
    if k' = k then mdel rest k else (k', v') :: mdel rest k

/-- Keys of a map. -/
def mkeys {κ ν : Type} (m : List (κ × ν)) : List κ := m.map Prod.fst

/-! ## Data model (`server.go`, lines 15-52) -/

/-- Record `User`: a ticket. `Price` is the `float64` constant `20.0`, never
computed with, held as the number 20. -/
structure User where
  TicketID : String
  FirstName : String
  LastName : String
  Email : String
  From : String
  To : String
  Price : Nat
  Section : String
  Seat : Int
deriving DecidableEq

/-- Record `Section`: seat limit, allocation cursor and occupancy map. -/
structure Section where
  CurrentSeat : Int
  MaxSeats : Int
  Occupied : List (Int × Bool)
deriving DecidableEq

/-- Record `server` without its mutex. -/
structure server where
  users : List (String × User)
  sections : List (String × Section)
deriving DecidableEq

/-- Read `section.Occupied[seat]`: a missing key reads as `false`. -/
def Section.occ (sec : Section) (seat : Int) : Bool :=
  (mget sec.Occupied seat).getD false

/-- Constructor `NewServer`: sections A and B with ten seats each. -/
def NewServer : server :=
  { users := []
    sections :=
      [("A", { CurrentSeat := 1, MaxSeats := 10, Occupied := [] }),
       ("B", { CurrentSeat := 1, MaxSeats := 10, Occupied := [] })] }

/-! ## Messages of the transport layer (fields used by the server) -/

structure PurchaseRequest where
  FirstName : String
  LastName : String
  Email : String
  From : String
  To : String
deriving DecidableEq

structure PurchaseResponse where
  Message : String
  TicketId : String
deriving DecidableEq

structure ReceiptRequest where
  TicketId : String
deriving DecidableEq

structure ReceiptResponse where
  TicketId : String
  From : String
  To : String
  User : String
  Price : Nat
  Section : String
  Seat : Int
deriving DecidableEq

structure ViewSeatRequest where
  Section : String
deriving DecidableEq

structure SeatAllocation where
  User : String
  Seat : Int
deriving DecidableEq

structure ViewSeatResponse where
  Seats : List SeatAllocation
deriving DecidableEq

structure RemoveUserRequest where
  TicketId : String
deriving DecidableEq

structure RemoveUserResponse where
  Message : String
deriving DecidableEq

structure ModifySeatRequest where
  TicketId : String
  Section : String
  Seat : Int
deriving DecidableEq

structure ModifySeatResponse where
  Message : String
  PreviousSection : String
  PreviousSeat : Int
  UpdatedSection : String
  UpdatedSeat : Int
deriving DecidableEq

/-! ## PurchaseTicket (`server.go`, lines 55-104) -/

/-- Inner loop `for seat := section.CurrentSeat; seat <= section.MaxSeats; seat++`:
the first seat from `seat` on that is not occupied. The first argument bounds
the number of iterations; the caller passes the length of the interval. -/
def scanSeats (sec : Section) : Nat → Int → Option Int
  | 0, _ => none
  | fuel + 1, seat =>
    if seat ≤ sec.MaxSeats then
      if !sec.occ seat then some seat else scanSeats sec fuel (seat + 1)
    else none

/-- The inner loop run on a section from its `CurrentSeat`. -/
def findSeat (sec : Section) : Option Int :=
  scanSeats sec (sec.MaxSeats + 1 - sec.CurrentSeat).toNat sec.CurrentSeat

/-- A section after the inner loop has taken `seat`: the seat is marked and
the cursor moves past it. -/
def Section.take (sec : Section) (seat : Int) : Section :=
  { sec with Occupied := mset sec.Occupied seat true, CurrentSeat := seat + 1 }

/-- Variables of the allocation loop: `sectionName`, `seatNumber`, and the
sections as written so far. -/
structure ScanState where
  sectionName : String
  seatNumber : Int
  sections : List (String × Section)
deriving DecidableEq

/-- Outer loop `for sec, section := range s.sections`, visiting the keys in
`order`; it stops after the first section for which `sectionName != ""`. -/
def rangeSections : List String → ScanState → ScanState
  | [], st => st
  | sec :: rest, st =>
    match mget st.sections sec with
    | none => rangeSections rest st
    | some sct =>
      let st' : ScanState :=
        match findSeat sct with
        | some seat =>
          { sectionName := sec, seatNumber := seat,
            sections := mset st.sections sec (sct.take seat) }
        | none => st
      if st'.sectionName ≠ "" then st' else rangeSections rest st'

/-- The success message of a purchase. -/
def purchaseMessage (sectionName : String) (seatNumber : Int) : String :=
  "Ticket purchased successfully in section " ++ sectionName ++ ", seat " ++
    toString seatNumber ++ "!"

/-- Operation `PurchaseTicket`. -/
def PurchaseTicket (s : server) (order : List String) (ticketID : String)
    (req : PurchaseRequest) : (PurchaseResponse × Option String) × server :=
  let st := rangeSections order { sectionName := "", seatNumber := 0, sections := s.sections }
  if st.sectionName = "" then
    (({ Message := "No seats available in any section", TicketId := "" },
      some "no seats available"),
     { users := s.users, sections := st.sections })
  else
    let user : User :=
      { TicketID := ticketID, FirstName := req.FirstName, LastName := req.LastName,
        Email := req.Email, From := req.From, To := req.To, Price := 20,
        Section := st.sectionName, Seat := st.seatNumber }
    (({ Message := purchaseMessage st.sectionName st.seatNumber, TicketId := ticketID },
      none),
     { users := mset s.users ticketID user, sections := st.sections })

/-! ## GetReceipt and ViewSeats (`server.go`, lines 107-142) -/

/-- Operation `GetReceipt`: a read; the state is returned as it was. -/
def GetReceipt (s : server) (req : ReceiptRequest) :
    (Option ReceiptResponse × Option String) × server :=
  match mget s.users req.TicketId with
  | some user =>
    ((some { TicketId := user.TicketID, From := user.From, To := user.To,
             User := user.FirstName ++ " " ++ user.LastName, Price := user.Price,
             Section := user.Section, Seat := user.Seat }, none), s)
  | none => ((none, some "ticket ID not found"), s)

/-- Loop `for _, user := range s.users` of `ViewSeats`, visiting the keys in
`order` and appending the users of the requested section. -/
def rangeUsers (users : List (String × User)) (wanted : String) :
    List String → List SeatAllocation → List SeatAllocation
  | [], seats => seats
  | id :: rest, seats =>
    match mget users id with
    | none => rangeUsers users wanted rest seats
    | some user =>
      if user.Section = wanted then
        rangeUsers users wanted rest
          (seats ++ [{ User := user.FirstName ++ " " ++ user.LastName, Seat := user.Seat }])
      else rangeUsers users wanted rest seats

/-- Operation `ViewSeats`: a read; the state is returned as it was. -/
def ViewSeats (s : server) (order : List String) (req : ViewSeatRequest) :
    (ViewSeatResponse × Option String) × server :=
  (({ Seats := rangeUsers s.users req.Section order [] }, none), s)

/-! ## RemoveUser and ModifySeat (`server.go`, lines 145-191) -/

/-- A section after `section.Occupied[seat] = false`. -/
def Section.release (sec : Section) (seat : Int) : Section :=
  { sec with Occupied := mset sec.Occupied seat false }

/-- A section after `section.Occupied[seat] = true`. -/
def Section.mark (sec : Section) (seat : Int) : Section :=
  { sec with Occupied := mset sec.Occupied seat true }

/-- Operation `RemoveUser`. The result is `none` when `s.sections[user.Section]`
is nil and the write through it panics. -/
def RemoveUser (s : server) (req : RemoveUserRequest) :
    Option ((RemoveUserResponse × Option String) × server) :=
  match mget s.users req.TicketId with
  | some user =>
    match mget s.sections user.Section with
    | none => none
    | some sct =>
      some (({ Message := "User removed successfully" }, none),
            { users := mdel s.users req.TicketId,
              sections := mset s.sections user.Section (sct.release user.Seat) })
  | none => some (({ Message := "Ticket ID not found" }, none), s)

/-- Operation `ModifySeat`. The target `section` is a pointer: when the ticket
already sits in the target section, releasing the previous seat and marking
the new one write to the same record. The result is `none` when
`s.sections[user.Section]` is nil and the write through it panics. -/
def ModifySeat (s : server) (req : ModifySeatRequest) :
    Option ((ModifySeatResponse × Option String) × server) :=
  match mget s.users req.TicketId with
  | some user =>
    let rejected : Option ((ModifySeatResponse × Option String) × server) :=
      some (({ Message := "Invalid or already occupied seat", PreviousSection := "",
               PreviousSeat := 0, UpdatedSection := "", UpdatedSeat := 0 }, none), s)
    match mget s.sections req.Section with
    | none => rejected
    | some sct =>
      if req.Seat > sct.MaxSeats ∨ sct.occ req.Seat = true then rejected
      else
        match mget s.sections user.Section with
        | none => none
        | some prev =>
          let released := prev.release user.Seat
          let sections1 := mset s.sections user.Section released
          let target := if user.Section = req.Section then released else sct
          let sections2 := mset sections1 req.Section (target.mark req.Seat)
          let user' : User := { user with Section := req.Section, Seat := req.Seat }
          some (({ Message := "Seat modified successfully",
                   PreviousSection := user.Section, PreviousSeat := user.Seat,
                   UpdatedSection := req.Section, UpdatedSeat := req.Seat }, none),
                { users := mset s.users req.TicketId user', sections := sections2 })
  | none =>
    some (({ Message := "Ticket ID not found", PreviousSection := "", PreviousSeat := 0,
             UpdatedSection := "", UpdatedSeat := 0 }, none), s)

/-! ## Reachable states -/

/-- States the server can be in: `NewServer()` followed by any calls. A
purchase draws a ticket id not in use and visits the sections in some order;
a call that panics has no successor state. -/
inductive Reachable : server → Prop
  | init : Reachable NewServer
  | purchase (s : server) (order : List String) (ticketID : String) (req : PurchaseRequest) :
      Reachable s → order.Perm (mkeys s.sections) → mget s.users ticketID = none →
      Reachable (PurchaseTicket s order ticketID req).2
  | getReceipt (s : server) (req : ReceiptRequest) :
      Reachable s → Reachable (GetReceipt s req).2
  | viewSeats (s : server) (order : List String) (req : ViewSeatRequest) :
      Reachable s → Reachable (ViewSeats s order req).2
  | removeUser (s : server) (req : RemoveUserRequest)
      (r : (RemoveUserResponse × Option String) × server) :
      Reachable s → RemoveUser s req = some r → Reachable r.2
  | modifySeat (s : server) (req : ModifySeatRequest)
      (r : (ModifySeatResponse × Option String) × server) :
      Reachable s → ModifySeat s req = some r → Reachable r.2

/-- The `(Section, Seat)` of the ticket filed under `id`, if it is live. -/
def assignment (s : server) (id : String) : Option (String × Int) :=
  (mget s.users id).map fun u => (u.Section, u.Seat)

/-- Whether `seat` of section `name` is marked occupied. -/
def occupiedAt (s : server) (name : String) (seat : Int) : Bool :=
  match mget s.sections name with
  | some sec => sec.occ seat
  | none => false

/-! ## Derived records and the state invariant -/

/-- The ticket record a purchase files. -/
def ticketOf (ticketID : String) (req : PurchaseRequest) (sectionName : String)
    (seatNumber : Int) : User :=
  { TicketID := ticketID, FirstName := req.FirstName, LastName := req.LastName,
    Email := req.Email, From := req.From, To := req.To, Price := 20,
    Section := sectionName, Seat := seatNumber }

/-- The response of a `ModifySeat` call that refuses its target. -/
def rejectedModify : ModifySeatResponse :=
  { Message := "Invalid or already occupied seat", PreviousSection := "", PreviousSeat := 0,
    UpdatedSection := "", UpdatedSeat := 0 }

/-- The sections after `ModifySeat` moved a ticket from `(from, old)`, found in
record `prev`, to `(to, new)`, found in record `sct`. -/
def movedSections (secs : List (String × Section)) (src : String) (old : Int)
    (prev : Section) (dst : String) (new : Int) (sct : Section) : List (String × Section) :=
  mset (mset secs src (prev.release old)) dst
    ((if src = dst then prev.release old else sct).mark new)

/-- What every reachable state satisfies: the sections are A and B with ten
seats each and a cursor in `[1, 11]`; every live ticket is filed under its own
id and its seat is marked in its section; every marked seat is held by a live
ticket; no two live tickets hold the same seat of the same section. -/
structure Inv (s : server) : Prop where
  keys : mkeys s.sections = ["A", "B"]
  cfg : ∀ name sct, mget s.sections name = some sct →
    sct.MaxSeats = 10 ∧ 1 ≤ sct.CurrentSeat ∧ sct.CurrentSeat ≤ 11
  ids : ∀ id u, mget s.users id = some u → u.TicketID = id
  live : ∀ id u, mget s.users id = some u → occupiedAt s u.Section u.Seat = true
  held : ∀ name seat, occupiedAt s name seat = true →
    ∃ id u, mget s.users id = some u ∧ u.Section = name ∧ u.Seat = seat
  uniq : ∀ id1 id2 u1 u2, mget s.users id1 = some u1 → mget s.users id2 = some u2 →
    u1.Section = u2.Section → u1.Seat = u2.Seat → id1 = id2

/-! ## Runs of purchases -/

/-- One `PurchaseTicket` call: the order in which the sections are visited,
the ticket id drawn, and the request. -/
structure PurchaseCall where
  order : List String
  ticketID : String
  req : PurchaseRequest
deriving DecidableEq

/-- Consecutive `PurchaseTicket` calls: for each call its response, its error
and the state right after it. -/
def purchaseAll (s : server) :
    List PurchaseCall → List ((PurchaseResponse × Option String) × server)
  | [] => []
  | c :: rest =>
    (PurchaseTicket s c.order c.ticketID c.req) ::
      purchaseAll (PurchaseTicket s c.order c.ticketID c.req).2 rest

/-- The state after consecutive `PurchaseTicket` calls. -/
def purchaseEnd (s : server) : List PurchaseCall → server
  | [] => s
  | c :: rest => purchaseEnd (PurchaseTicket s c.order c.ticketID c.req).2 rest

/-- The seat a purchase was given: that of the ticket filed under the returned
id, read right after the call. -/
def assigned (r : (PurchaseResponse × Option String) × server) : Option (String × Int) :=
  assignment r.2 r.1.1.TicketId

/-- The `CurrentSeat` of the section `name`. -/
def cursor (s : server) (name : String) : Int :=
  match mget s.sections name with
  | some sec => sec.CurrentSeat
  | none => 0

/-- States in which no seat at or after a cursor is marked, as after purchases
alone. -/
def Packed (s : server) : Prop :=
  mkeys s.sections = ["A", "B"] ∧
    ∀ name sct, mget s.sections name = some sct →
      sct.MaxSeats = 10 ∧ 1 ≤ sct.CurrentSeat ∧ sct.CurrentSeat ≤ 11 ∧
        ∀ k, sct.CurrentSeat ≤ k → sct.occ k = false

/-- The state of a call that returned, or `s` if it panicked. -/
def stateAfter {ρ : Type} (s : server) (r : Option (ρ × server)) : server :=
  match r with
  | some x => x.2
  | none => s

/-! ## Sample requests and runs -/

/-- The request of `TestViewSeats`. -/
def bob : PurchaseRequest :=
  { FirstName := "Bob", LastName := "Brown", Email := "bb@example.com",
    From := "Patna", To := "Gaya" }

/-- The ticket ids `t0`, `t1`, ... used in the sample runs. -/
def tid (i : Nat) : String := "t" ++ toString i

/-- A run of `n` purchases that all visit section A first. -/
def callsAB (n : Nat) : List PurchaseCall :=
  (List.range n).map fun i => { order := ["A", "B"], ticketID := tid i, req := bob }

/-- A run of `n` purchases that visit the sections in alternating orders. -/
def callsMixed (n : Nat) : List PurchaseCall :=
  (List.range n).map fun i =>
    { order := if i % 2 = 0 then ["A", "B"] else ["B", "A"], ticketID := tid i, req := bob }

/-- The registry after twenty purchases. -/
def fullServer : server := purchaseEnd NewServer (callsAB 20)

/-- The registry after one purchase that visited section A first. -/
def oneTicket : server := (PurchaseTicket NewServer ["A", "B"] (tid 0) bob).2

/-- The registry after two purchases that visited section A first. -/
def twoTickets : server := purchaseEnd NewServer (callsAB 2)

/-- The registry after two purchases and the cancellation of the first ticket. -/
def staleServer : server := stateAfter twoTickets (RemoveUser twoTickets { TicketId := tid 0 })

/-- The registry after twenty purchases and the cancellation of the first ticket. -/
def reopened : server := stateAfter fullServer (RemoveUser fullServer { TicketId := tid 0 })

/-! ## Counting, listing and runs of calls -/

/-- Further facts of every reachable state: the users table files each id
once, and no live ticket sits above seat 10. -/
structure Tidy (s : server) : Prop where
  nodup : (mkeys s.users).Nodup
  upper : ∀ id u, mget s.users id = some u → u.Seat ≤ 10

/-- The seats of a section that read as occupied, each listed once. -/
def occupiedSeats (sec : Section) : List Int :=
  (mkeys sec.Occupied).dedup.filter fun k => sec.occ k

/-- The number of occupied seats of the section `name`. -/
def occupiedIn (s : server) (name : String) : Nat :=
  match mget s.sections name with
  | some sec => (occupiedSeats sec).length
  | none => 0

/-- The total number of occupied seats. -/
def occupiedCount (s : server) : Nat :=
  ((mkeys s.sections).map (occupiedIn s)).sum

/-- The entry `ViewSeats` lists for a ticket. -/
def seatEntry (u : User) : SeatAllocation :=
  { User := u.FirstName ++ " " ++ u.LastName, Seat := u.Seat }

/-- The live tickets of the section `name`, in the order of the users table. -/
def ticketsIn (s : server) (name : String) : List User :=
  (s.users.filter fun p => p.2.Section = name).map Prod.snd

/-- What one round of the `ViewSeats` loop appends for the key `id`. -/
def listed (users : List (String × User)) (wanted : String) (id : String) :
    Option SeatAllocation :=
  (mget users id).bind fun u => if u.Section = wanted then some (seatEntry u) else none

/-- The seat a call issued: that of a purchase that returned a nil error,
nothing for a purchase that failed. -/
def issued (r : (PurchaseResponse × Option String) × server) : List (String × Int) :=
  if r.1.2 = none then (assigned r).toList else []

/-- Runs of calls from `NewServer()`: the state reached together with the
seats issued by the successful purchases so far, the latest first. -/
inductive Run : server → List (String × Int) → Prop
  | init : Run NewServer []
  | purchase (s : server) (l : List (String × Int)) (order : List String)
      (ticketID : String) (req : PurchaseRequest) :
      Run s l → order.Perm (mkeys s.sections) → mget s.users ticketID = none →
      Run (PurchaseTicket s order ticketID req).2
        (issued (PurchaseTicket s order ticketID req) ++ l)
  | getReceipt (s : server) (l : List (String × Int)) (req : ReceiptRequest) :
      Run s l → Run (GetReceipt s req).2 l
  | viewSeats (s : server) (l : List (String × Int)) (order : List String)
      (req : ViewSeatRequest) :
      Run s l → Run (ViewSeats s order req).2 l
  | removeUser (s : server) (l : List (String × Int)) (req : RemoveUserRequest)
      (r : (RemoveUserResponse × Option String) × server) :
      Run s l → RemoveUser s req = some r → Run r.2 l
  | modifySeat (s : server) (l : List (String × Int)) (req : ModifySeatRequest)
      (r : (ModifySeatResponse × Option String) × server) :
      Run s l → ModifySeat s req = some r → Run r.2 l

/-- The seats of `l` issued in the section `name`, the latest first. -/
def issuedIn (l : List (String × Int)) (name : String) : List Int :=
  (l.filter fun a => a.1 = name).map Prod.snd

/-- The registry after one purchase and a move of its ticket to seat 0 of A. -/
def seatZero : server :=
  stateAfter oneTicket (ModifySeat oneTicket { TicketId := tid 0, Section := "A", Seat := 0 })

/-- The registry after one purchase and a move of its ticket to seat 5 of B. -/
def movedToB : server :=
  stateAfter oneTicket (ModifySeat oneTicket { TicketId := tid 0, Section := "B", Seat := 5 })

/-- The state after an accepted `ModifySeat`. -/
def movedState (s : server) (id : String) (u : User) (prev : Section) (dst : String)
    (new : Int) (sct : Section) : server :=
  ⟨mset s.users id { u with Section := dst, Seat := new },
    movedSections s.sections u.Section u.Seat prev dst new sct⟩

/-- A request whose fields are all empty strings. -/
def blank : PurchaseRequest :=
  { FirstName := "", LastName := "", Email := "", From := "", To := "" }

/-- The `CurrentSeat` of the section `name`, if the section is configured. -/
def cursorOf (s : server) (name : String) : Option Int :=
  (mget s.sections name).map fun sct => sct.CurrentSeat

/-- How the seats issued so far sit under the cursors: in each section they
are fewer than the cursor, below it, and strictly decreasing from the latest
to the first; none was issued in a section that is not configured; and their
number is bounded by the two cursors. -/
structure Issued (s : server) (l : List (String × Int)) : Prop where
  count : ∀ name c, cursorOf s name = some c → ((issuedIn l name).length : Int) + 1 ≤ c
  below : ∀ name c, cursorOf s name = some c → ∀ x ∈ issuedIn l name, x < c
  known : ∀ name, cursorOf s name = none → issuedIn l name = []
  sorted : ∀ name, (issuedIn l name).Pairwise fun x y => x > y
  total : (l.length : Int) + 2 ≤ cursor s "A" + cursor s "B"

/-! ## Map lemmas -/

theorem mget_mset_same {κ ν : Type} [DecidableEq κ] (m : List (κ × ν)) (k : κ) (v : ν) :
    mget (mset m k v) k = some v := by
  induction m with
  | nil => simp [mset, mget]
  | cons e rest ih =>
    obtain ⟨k', v'⟩ := e
    by_cases h : k' = k
    · simp [mset, mget, h]
    · simp [mset, mget, h, ih]

theorem mget_mset_ne {κ ν : Type} [DecidableEq κ] (m : List (κ × ν)) (k j : κ) (v : ν)
    (h : j ≠ k) : mget (mset m k v) j = mget m j := by
  induction m with
  | nil => simp [mset, mget, Ne.symm h]
  | cons e rest ih =>
    obtain ⟨k', v'⟩ := e
    by_cases hk : k' = k
    · subst hk
      simp [mset, mget, Ne.symm h]
    · by_cases hj : k' = j
      · subst hj
        simp [mset, mget, h]
      · simp [mset, mget, hk, hj, ih]

theorem mget_mset {κ ν : Type} [DecidableEq κ] (m : List (κ × ν)) (k j : κ) (v : ν) :
    mget (mset m k v) j = if j = k then some v else mget m j := by
  by_cases h : j = k
  · subst h
    simp [mget_mset_same]
  · simp [h, mget_mset_ne m k j v h]

theorem mget_mdel_same {κ ν : Type} [DecidableEq κ] (m : List (κ × ν)) (k : κ) :
    mget (mdel m k) k = none := by
  induction m with
  | nil => simp [mdel, mget]
  | cons e rest ih =>
    obtain ⟨k', v'⟩ := e
    by_cases h : k' = k
    · simp [mdel, h, ih]
    · simp [mdel, mget, h, ih]

theorem mget_mdel_ne {κ ν : Type} [DecidableEq κ] (m : List (κ × ν)) (k j : κ)
    (h : j ≠ k) : mget (mdel m k) j = mget m j := by
  induction m with
  | nil => simp [mdel, mget]
  | cons e rest ih =>
    obtain ⟨k', v'⟩ := e
    by_cases hk : k' = k
    · subst hk
      simp [mdel, mget, Ne.symm h, ih]
    · by_cases hj : k' = j
      · subst hj
        simp [mdel, mget, h]
      · simp [mdel, mget, hk, hj, ih]

theorem mget_mdel {κ ν : Type} [DecidableEq κ] (m : List (κ × ν)) (k j : κ) :
    mget (mdel m k) j = if j = k then none else mget m j := by
  by_cases h : j = k
  · subst h
    simp [mget_mdel_same]
  · simp [h, mget_mdel_ne m k j h]

theorem mkeys_mset {κ ν : Type} [DecidableEq κ] (m : List (κ × ν)) (k : κ) (v w : ν)
    (h : mget m k = some w) : mkeys (mset m k v) = mkeys m := by
  induction m with
  | nil => simp [mget] at h
  | cons e rest ih =>
    obtain ⟨k', v'⟩ := e
    by_cases hk : k' = k
    · simp [mset, mkeys, hk]
    · simp only [mget, hk, if_false] at h
      have := ih h
      simp only [mkeys] at this
      simp [mset, mkeys, hk, this]

theorem mset_same_value {κ ν : Type} [DecidableEq κ] (m : List (κ × ν)) (k : κ) (v : ν)
    (h : mget m k = some v) : mset m k v = m := by
  induction m with
  | nil => simp [mget] at h
  | cons e rest ih =>
    obtain ⟨k', v'⟩ := e
    by_cases hk : k' = k
    · simp only [mget, hk, if_true, Option.some.injEq] at h
      simp [mset, hk, h]
    · simp only [mget, hk, if_false] at h
      simp [mset, hk, ih h]

theorem mem_mkeys_of_mget {κ ν : Type} [DecidableEq κ] (m : List (κ × ν)) (k : κ) (v : ν)
    (h : mget m k = some v) : k ∈ mkeys m := by
  induction m with
  | nil => simp [mget] at h
  | cons e rest ih =>
    obtain ⟨k', v'⟩ := e
    by_cases hk : k' = k
    · simp [mkeys, hk]
    · simp only [mget, hk, if_false] at h
      have := ih h
      simp only [mkeys] at this
      simp [mkeys, this]

theorem mget_of_mem_mkeys {κ ν : Type} [DecidableEq κ] (m : List (κ × ν)) (k : κ)
    (h : k ∈ mkeys m) : ∃ v, mget m k = some v := by
  induction m with
  | nil => simp [mkeys] at h
  | cons e rest ih =>
    obtain ⟨k', v'⟩ := e
    by_cases hk : k' = k
    · exact ⟨v', by simp [mget, hk]⟩
    · have hmem : k ∈ mkeys rest := by
        simp only [mkeys, List.map_cons, List.mem_cons] at h
        rcases h with h | h
        · exact absurd h.symm hk
        · exact h
      obtain ⟨v, hv⟩ := ih hmem
      exact ⟨v, by simp [mget, hk, hv]⟩

/-! ## Occupancy lemmas -/

theorem occ_mark (sec : Section) (seat k : Int) :
    (sec.mark seat).occ k = if k = seat then true else sec.occ k := by
  simp only [Section.occ, Section.mark, mget_mset]
  split <;> simp

theorem occ_take (sec : Section) (seat k : Int) :
    (sec.take seat).occ k = if k = seat then true else sec.occ k := by
  simp only [Section.occ, Section.take, mget_mset]
  split <;> simp

theorem occ_release (sec : Section) (seat k : Int) :
    (sec.release seat).occ k = if k = seat then false else sec.occ k := by
  simp only [Section.occ, Section.release, mget_mset]
  split <;> simp

/-! ## The seat scan -/

theorem scanSeats_some (sec : Section) (fuel : Nat) (start seat : Int)
    (h : scanSeats sec fuel start = some seat) :
    start ≤ seat ∧ seat ≤ sec.MaxSeats ∧ sec.occ seat = false ∧
      ∀ k, start ≤ k → k < seat → sec.occ k = true := by
  induction fuel generalizing start with
  | zero => simp [scanSeats] at h
  | succ n ih =>
    simp only [scanSeats] at h
    by_cases hle : start ≤ sec.MaxSeats
    · simp only [hle, if_true] at h
      by_cases ho : sec.occ start = true
      · simp only [ho, Bool.not_true, Bool.false_eq_true, if_false] at h
        obtain ⟨h1, h2, h3, h4⟩ := ih (start + 1) h
        refine ⟨by omega, h2, h3, ?_⟩
        intro k hk1 hk2
        by_cases hks : k = start
        · subst hks; exact ho
        · exact h4 k (by omega) hk2
      · have ho' : sec.occ start = false := by simpa using ho
        simp only [ho', Bool.not_false, if_true, Option.some.injEq] at h
        subst h
        exact ⟨le_refl _, hle, ho', fun k hk1 hk2 => by omega⟩
    · simp [hle] at h

theorem scanSeats_none (sec : Section) (fuel : Nat) (start : Int)
    (hfuel : (sec.MaxSeats + 1 - start).toNat ≤ fuel)
    (h : scanSeats sec fuel start = none) :
    ∀ k, start ≤ k → k ≤ sec.MaxSeats → sec.occ k = true := by
  induction fuel generalizing start with
  | zero =>
    intro k hk1 hk2
    omega
  | succ n ih =>
    intro k hk1 hk2
    simp only [scanSeats] at h
    have hle : start ≤ sec.MaxSeats := by omega
    simp only [hle, if_true] at h
    by_cases ho : sec.occ start = true
    · simp only [ho, Bool.not_true, Bool.false_eq_true, if_false] at h
      by_cases hks : k = start
      · subst hks; exact ho
      · exact ih (start + 1) (by omega) h k (by omega) hk2
    · have ho' : sec.occ start = false := by simpa using ho
      simp [ho'] at h

theorem scanSeats_of_free (sec : Section) (fuel : Nat) (start seat : Int)
    (hfuel : (sec.MaxSeats + 1 - start).toNat ≤ fuel)
    (h1 : start ≤ seat) (h2 : seat ≤ sec.MaxSeats) (h3 : sec.occ seat = false) :
    ∃ found, scanSeats sec fuel start = some found := by
  cases hs : scanSeats sec fuel start with
  | some found => exact ⟨found, rfl⟩
  | none =>
    have := scanSeats_none sec fuel start hfuel hs seat h1 h2
    simp [h3] at this

/-- What `findSeat` returns: the lowest seat of `[CurrentSeat, MaxSeats]` that is
not occupied. -/
theorem findSeat_some (sec : Section) (seat : Int) (h : findSeat sec = some seat) :
    sec.CurrentSeat ≤ seat ∧ seat ≤ sec.MaxSeats ∧ sec.occ seat = false ∧
      ∀ k, sec.CurrentSeat ≤ k → k < seat → sec.occ k = true :=
  scanSeats_some sec _ _ seat h

/-- When `findSeat` finds nothing, every seat of `[CurrentSeat, MaxSeats]` is occupied. -/
theorem findSeat_none (sec : Section) (h : findSeat sec = none) :
    ∀ k, sec.CurrentSeat ≤ k → k ≤ sec.MaxSeats → sec.occ k = true :=
  scanSeats_none sec _ _ (le_refl _) h

/-! ## The allocation loop -/

/-- The two ways out of the allocation loop when no key is the empty string:
nothing was found and nothing was written, or the first section of `order`
with a seat left gave its seat. -/
theorem rangeSections_cases (order : List String) (secs : List (String × Section))
    (hne : "" ∉ order) :
    ((∀ sec ∈ order, ∀ sct, mget secs sec = some sct → findSeat sct = none) ∧
      rangeSections order { sectionName := "", seatNumber := 0, sections := secs } =
        { sectionName := "", seatNumber := 0, sections := secs }) ∨
    (∃ pre sec post sct seat, order = pre ++ sec :: post ∧
      (∀ p ∈ pre, ∀ q, mget secs p = some q → findSeat q = none) ∧
      mget secs sec = some sct ∧ findSeat sct = some seat ∧
      rangeSections order { sectionName := "", seatNumber := 0, sections := secs } =
        { sectionName := sec, seatNumber := seat,
          sections := mset secs sec (sct.take seat) }) := by
  induction order with
  | nil => left; exact ⟨by simp, rfl⟩
  | cons sec rest ih =>
    have hsec : sec ≠ "" := fun h => hne (by simp [h])
    have hrest : "" ∉ rest := fun h => hne (by simp [h])
    by_cases hfound : ∃ sct seat, mget secs sec = some sct ∧ findSeat sct = some seat
    · obtain ⟨sct, seat, hg, hf⟩ := hfound
      right
      exact ⟨[], sec, rest, sct, seat, rfl, by simp, hg, hf,
        by simp [rangeSections, hg, hf, hsec]⟩
    · have hskip : ∀ sct, mget secs sec = some sct → findSeat sct = none := by
        intro sct hs
        cases hf : findSeat sct with
        | none => rfl
        | some seat => exact absurd ⟨sct, seat, hs, hf⟩ hfound
      have heq : rangeSections (sec :: rest)
            { sectionName := "", seatNumber := 0, sections := secs } =
          rangeSections rest { sectionName := "", seatNumber := 0, sections := secs } := by
        cases hg : mget secs sec with
        | none => simp [rangeSections, hg]
        | some sct => simp [rangeSections, hg, hskip sct hg]
      rw [heq]
      rcases ih hrest with ⟨h1, h2⟩ | ⟨pre, sec', post, sct, seat, h1, h2, h3, h4, h5⟩
      · left
        refine ⟨?_, h2⟩
        intro x hx sct hs
        rcases List.mem_cons.mp hx with hx | hx
        · subst hx; exact hskip sct hs
        · exact h1 x hx sct hs
      · right
        refine ⟨sec :: pre, sec', post, sct, seat, by simp [h1], ?_, h3, h4, h5⟩
        intro p hp q hq
        rcases List.mem_cons.mp hp with hp | hp
        · subst hp; exact hskip q hq
        · exact h2 p hp q hq

/-- The two outcomes of `PurchaseTicket` when no key is the empty string. -/
theorem PurchaseTicket_cases (s : server) (order : List String) (ticketID : String)
    (req : PurchaseRequest) (hne : "" ∉ order) :
    ((∀ sec ∈ order, ∀ sct, mget s.sections sec = some sct → findSeat sct = none) ∧
      PurchaseTicket s order ticketID req =
        (({ Message := "No seats available in any section", TicketId := "" },
          some "no seats available"), s)) ∨
    (∃ pre sec post sct seat, order = pre ++ sec :: post ∧
      (∀ p ∈ pre, ∀ q, mget s.sections p = some q → findSeat q = none) ∧
      mget s.sections sec = some sct ∧ findSeat sct = some seat ∧
      PurchaseTicket s order ticketID req =
        (({ Message := purchaseMessage sec seat, TicketId := ticketID }, none),
         { users := mset s.users ticketID (ticketOf ticketID req sec seat),
           sections := mset s.sections sec (sct.take seat) })) := by
  rcases rangeSections_cases order s.sections hne with
    ⟨h1, h2⟩ | ⟨pre, sec, post, sct, seat, h1, h2, h3, h4, h5⟩
  · left
    refine ⟨h1, ?_⟩
    simp [PurchaseTicket, h2]
  · right
    have hsec : sec ≠ "" := fun h => hne (by simp [h1, h])
    refine ⟨pre, sec, post, sct, seat, h1, h2, h3, h4, ?_⟩
    simp [PurchaseTicket, h5, hsec, ticketOf]

/-! ## Occupancy of a state after a write to one section -/

theorem occupiedAt_mset (users : List (String × User)) (secs : List (String × Section))
    (name : String) (sct : Section) (n : String) (seat : Int) :
    occupiedAt { users := users, sections := mset secs name sct } n seat =
      if n = name then sct.occ seat else
        occupiedAt { users := users, sections := secs } n seat := by
  simp only [occupiedAt, mget_mset]
  by_cases h : n = name <;> simp [h]

theorem occupiedAt_users (users users' : List (String × User))
    (secs : List (String × Section)) (n : String) (seat : Int) :
    occupiedAt { users := users, sections := secs } n seat =
      occupiedAt { users := users', sections := secs } n seat := rfl

theorem occupiedAt_of_mget (s : server) (name : String) (sct : Section) (seat : Int)
    (h : mget s.sections name = some sct) : occupiedAt s name seat = sct.occ seat := by
  simp [occupiedAt, h]

theorem mget_of_occupiedAt (s : server) (name : String) (seat : Int)
    (h : occupiedAt s name seat = true) :
    ∃ sct, mget s.sections name = some sct ∧ sct.occ seat = true := by
  unfold occupiedAt at h
  cases hg : mget s.sections name with
  | none => simp [hg] at h
  | some sct => exact ⟨sct, rfl, by simpa [hg] using h⟩

theorem Inv_NewServer : Inv NewServer where
  keys := rfl
  cfg := by
    intro name sct h
    simp only [NewServer, mget] at h
    split at h
    · cases h; decide
    · split at h
      · cases h; decide
      · cases h
  ids := by intro id u h; simp [NewServer, mget] at h
  live := by intro id u h; simp [NewServer, mget] at h
  held := by
    intro name seat h
    obtain ⟨sct, h1, h2⟩ := mget_of_occupiedAt _ _ _ h
    simp only [NewServer, mget] at h1
    split at h1
    · cases h1; simp [Section.occ, mget] at h2
    · split at h1
      · cases h1; simp [Section.occ, mget] at h2
      · cases h1
  uniq := by intro id1 id2 u1 u2 h; simp [NewServer, mget] at h

theorem perm_keys_no_empty (s : server) (order : List String) (hk : mkeys s.sections = ["A", "B"])
    (hp : order.Perm (mkeys s.sections)) : "" ∉ order := by
  intro h
  have := hp.subset h
  rw [hk] at this
  simp at this

/-- A successful purchase keeps the invariant. -/
theorem Inv_purchase_step (s : server) (ticketID : String) (req : PurchaseRequest)
    (sec : String) (sct : Section) (seat : Int) (hI : Inv s)
    (hfresh : mget s.users ticketID = none) (hg : mget s.sections sec = some sct)
    (hf : findSeat sct = some seat) :
    Inv { users := mset s.users ticketID (ticketOf ticketID req sec seat),
          sections := mset s.sections sec (sct.take seat) } := by
  obtain ⟨hlo, hhi, hfree, _⟩ := findSeat_some sct seat hf
  obtain ⟨hmax, hc1, hc2⟩ := hI.cfg sec sct hg
  have hocc : ∀ n k,
      occupiedAt ⟨mset s.users ticketID (ticketOf ticketID req sec seat),
        mset s.sections sec (sct.take seat)⟩ n k =
      if n = sec ∧ k = seat then true else occupiedAt s n k := by
    intro n k
    rw [occupiedAt_mset]
    by_cases hn : n = sec
    · subst hn
      rw [occ_take, occupiedAt_of_mget s n sct k hg]
      by_cases hk : k = seat <;> simp [hk]
    · simp only [hn, if_false, false_and]
      rfl
  have hold : occupiedAt s sec seat = false := by
    rw [occupiedAt_of_mget s sec sct seat hg]; exact hfree
  refine ⟨?_, ?_, ?_, ?_, ?_, ?_⟩
  · show mkeys (mset s.sections sec (sct.take seat)) = ["A", "B"]
    rw [mkeys_mset _ _ _ _ hg]; exact hI.keys
  · intro name q hq
    change mget (mset s.sections sec (sct.take seat)) name = some q at hq
    rw [mget_mset] at hq
    split at hq
    · cases hq
      simp only [Section.take]
      omega
    · exact hI.cfg name q hq
  · intro id u hu
    change mget (mset s.users ticketID _) id = some u at hu
    rw [mget_mset] at hu
    split at hu
    · cases hu; simp [ticketOf, *]
    · exact hI.ids id u hu
  · intro id u hu
    change mget (mset s.users ticketID _) id = some u at hu
    rw [mget_mset] at hu
    rw [hocc]
    split at hu
    · cases hu; simp [ticketOf]
    · have := hI.live id u hu
      simp [this]
  · intro name k hk
    rw [hocc] at hk
    by_cases hnk : name = sec ∧ k = seat
    · obtain ⟨h1, h2⟩ := hnk
      subst h1 h2
      exact ⟨ticketID, ticketOf ticketID req name k, mget_mset_same _ _ _, rfl, rfl⟩
    · simp only [hnk, if_false] at hk
      obtain ⟨id, u, h1, h2, h3⟩ := hI.held name k hk
      have hid : id ≠ ticketID := by
        intro h; subst h; rw [hfresh] at h1; cases h1
      exact ⟨id, u, by
        show mget (mset s.users ticketID _) id = some u
        rw [mget_mset_ne _ _ _ _ hid]; exact h1, h2, h3⟩
  · intro id1 id2 u1 u2 h1 h2 hs hn
    change mget (mset s.users ticketID _) id1 = some u1 at h1
    change mget (mset s.users ticketID _) id2 = some u2 at h2
    rw [mget_mset] at h1 h2
    by_cases e1 : id1 = ticketID <;> by_cases e2 : id2 = ticketID
    · rw [e1, e2]
    · simp only [e1, e2, if_true, if_false, Option.some.injEq] at h1 h2
      subst h1
      have := hI.live id2 u2 h2
      simp only [ticketOf] at hs hn
      rw [← hs, ← hn, hold] at this
      cases this
    · simp only [e1, e2, if_true, if_false, Option.some.injEq] at h1 h2
      subst h2
      have := hI.live id1 u1 h1
      simp only [ticketOf] at hs hn
      rw [hs, hn, hold] at this
      cases this
    · simp only [e1, e2, if_false] at h1 h2
      exact hI.uniq id1 id2 u1 u2 h1 h2 hs hn

/-! ## RemoveUser and ModifySeat, case by case -/

theorem RemoveUser_absent (s : server) (id : String) (hu : mget s.users id = none) :
    RemoveUser s { TicketId := id } =
      some (({ Message := "Ticket ID not found" }, none), s) := by
  simp [RemoveUser, hu]

theorem RemoveUser_live (s : server) (id : String) (u : User) (sct : Section)
    (hu : mget s.users id = some u) (hg : mget s.sections u.Section = some sct) :
    RemoveUser s { TicketId := id } =
      some (({ Message := "User removed successfully" }, none),
        ⟨mdel s.users id, mset s.sections u.Section (sct.release u.Seat)⟩) := by
  simp [RemoveUser, hu, hg]

theorem ModifySeat_absent (s : server) (req : ModifySeatRequest)
    (hu : mget s.users req.TicketId = none) :
    ModifySeat s req =
      some (({ Message := "Ticket ID not found", PreviousSection := "", PreviousSeat := 0,
               UpdatedSection := "", UpdatedSeat := 0 }, none), s) := by
  simp [ModifySeat, hu]

theorem ModifySeat_rejected (s : server) (req : ModifySeatRequest) (u : User)
    (hu : mget s.users req.TicketId = some u)
    (h : ∀ sct, mget s.sections req.Section = some sct →
      req.Seat > sct.MaxSeats ∨ sct.occ req.Seat = true) :
    ModifySeat s req = some ((rejectedModify, none), s) := by
  cases hg : mget s.sections req.Section with
  | none => simp [ModifySeat, hu, hg, rejectedModify]
  | some sct =>
    have := h sct hg
    simp [ModifySeat, hu, hg, rejectedModify, this]

theorem ModifySeat_accepted (s : server) (req : ModifySeatRequest) (u : User)
    (sct prev : Section) (hu : mget s.users req.TicketId = some u)
    (hg : mget s.sections req.Section = some sct) (hle : req.Seat ≤ sct.MaxSeats)
    (hfree : sct.occ req.Seat = false) (hp : mget s.sections u.Section = some prev) :
    ModifySeat s req =
      some (({ Message := "Seat modified successfully", PreviousSection := u.Section,
               PreviousSeat := u.Seat, UpdatedSection := req.Section,
               UpdatedSeat := req.Seat }, none),
        ⟨mset s.users req.TicketId { u with Section := req.Section, Seat := req.Seat },
          movedSections s.sections u.Section u.Seat prev req.Section req.Seat sct⟩) := by
  have hnot : ¬ (req.Seat > sct.MaxSeats ∨ sct.occ req.Seat = true) := by
    simp [hfree]; omega
  simp only [ModifySeat, hu, hg, hp, hnot, if_false, movedSections]

/-- Occupancy after a move: the new seat is marked, the old seat is released,
every other seat reads as before. -/
theorem occupiedAt_moved (s : server) (users : List (String × User)) (src dst : String)
    (old new : Int) (prev sct : Section) (hp : mget s.sections src = some prev)
    (hg : mget s.sections dst = some sct) (n : String) (k : Int) :
    occupiedAt ⟨users, movedSections s.sections src old prev dst new sct⟩ n k =
      if n = dst ∧ k = new then true
      else if n = src ∧ k = old then false else occupiedAt s n k := by
  unfold movedSections
  rw [occupiedAt_mset, occupiedAt_mset]
  by_cases hn : n = dst
  · subst hn
    rw [occ_mark]
    by_cases hk : k = new
    · simp [hk]
    · simp only [hk, if_false, and_false, if_true]
      by_cases hsd : src = n
      · subst hsd
        rw [hp] at hg
        cases hg
        simp only [if_true, occ_release, true_and]
        by_cases hko : k = old
        · simp [hko]
        · simp [hko, occupiedAt, hp]
      · have hds : ¬ n = src := fun h => hsd h.symm
        simp [hsd, hds, occupiedAt, hg]
  · simp only [hn, if_false, false_and]
    by_cases hs : n = src
    · subst hs
      simp only [if_true, occ_release, true_and]
      by_cases hko : k = old
      · simp [hko]
      · simp [hko, occupiedAt, hp]
    · simp only [hs, if_false, false_and]
      rfl

/-- Occupancy after a release. -/
theorem occupiedAt_released (s : server) (users : List (String × User)) (src : String)
    (old : Int) (prev : Section) (hp : mget s.sections src = some prev) (n : String) (k : Int) :
    occupiedAt ⟨users, mset s.sections src (prev.release old)⟩ n k =
      if n = src ∧ k = old then false else occupiedAt s n k := by
  rw [occupiedAt_mset]
  by_cases hs : n = src
  · subst hs
    simp only [if_true, occ_release, true_and]
    by_cases hko : k = old
    · simp [hko]
    · simp [hko, occupiedAt, hp]
  · simp only [hs, if_false, false_and]
    rfl

/-- A cancellation keeps the invariant. -/
theorem Inv_remove_step (s : server) (id : String) (u : User) (sct : Section) (hI : Inv s)
    (hu : mget s.users id = some u) (hg : mget s.sections u.Section = some sct) :
    Inv ⟨mdel s.users id, mset s.sections u.Section (sct.release u.Seat)⟩ := by
  have hocc := occupiedAt_released s (mdel s.users id) u.Section u.Seat sct hg
  refine ⟨?_, ?_, ?_, ?_, ?_, ?_⟩
  · show mkeys (mset s.sections u.Section _) = ["A", "B"]
    rw [mkeys_mset _ _ _ _ hg]; exact hI.keys
  · intro name q hq
    change mget (mset s.sections u.Section _) name = some q at hq
    rw [mget_mset] at hq
    split at hq
    · cases hq
      exact hI.cfg u.Section sct hg
    · exact hI.cfg name q hq
  · intro j v hv
    change mget (mdel s.users id) j = some v at hv
    rw [mget_mdel] at hv
    split at hv
    · cases hv
    · exact hI.ids j v hv
  · intro j v hv
    change mget (mdel s.users id) j = some v at hv
    rw [mget_mdel] at hv
    split at hv
    · cases hv
    · rename_i hj
      rw [hocc]
      have hne : ¬ (v.Section = u.Section ∧ v.Seat = u.Seat) := fun h =>
        hj (hI.uniq j id v u hv hu h.1 h.2)
      simp only [hne, if_false]
      exact hI.live j v hv
  · intro name k hk
    rw [hocc] at hk
    by_cases hnk : name = u.Section ∧ k = u.Seat
    · simp [hnk] at hk
    · simp only [hnk, if_false] at hk
      obtain ⟨j, v, h1, h2, h3⟩ := hI.held name k hk
      have hj : j ≠ id := by
        intro h
        subst h
        rw [hu] at h1
        cases h1
        exact hnk ⟨h2.symm, h3.symm⟩
      exact ⟨j, v, by
        show mget (mdel s.users id) j = some v
        rw [mget_mdel_ne _ _ _ hj]; exact h1, h2, h3⟩
  · intro id1 id2 u1 u2 h1 h2 hs hn
    change mget (mdel s.users id) id1 = some u1 at h1
    change mget (mdel s.users id) id2 = some u2 at h2
    rw [mget_mdel] at h1 h2
    split at h1
    · cases h1
    · split at h2
      · cases h2
      · exact hI.uniq id1 id2 u1 u2 h1 h2 hs hn

/-- An accepted move keeps the invariant. -/
theorem Inv_modify_step (s : server) (req : ModifySeatRequest) (u : User)
    (sct prev : Section) (hI : Inv s) (hu : mget s.users req.TicketId = some u)
    (hg : mget s.sections req.Section = some sct)
    (hfree : sct.occ req.Seat = false) (hp : mget s.sections u.Section = some prev) :
    Inv ⟨mset s.users req.TicketId { u with Section := req.Section, Seat := req.Seat },
      movedSections s.sections u.Section u.Seat prev req.Section req.Seat sct⟩ := by
  have hocc := occupiedAt_moved s
    (mset s.users req.TicketId { u with Section := req.Section, Seat := req.Seat })
    u.Section req.Section u.Seat req.Seat prev sct hp hg
  have hnew : occupiedAt s req.Section req.Seat = false := by
    rw [occupiedAt_of_mget s _ sct _ hg]; exact hfree
  have hrel : ∃ q, mget (mset s.sections u.Section (prev.release u.Seat)) req.Section = some q := by
    rw [mget_mset]
    split
    · exact ⟨_, rfl⟩
    · exact ⟨_, hg⟩
  obtain ⟨q0, hq0⟩ := hrel
  refine ⟨?_, ?_, ?_, ?_, ?_, ?_⟩
  · show mkeys (movedSections _ _ _ _ _ _ _) = ["A", "B"]
    unfold movedSections
    rw [mkeys_mset _ _ _ _ hq0, mkeys_mset _ _ _ _ hp]; exact hI.keys
  · intro name q hq
    change mget (movedSections _ _ _ _ _ _ _) name = some q at hq
    unfold movedSections at hq
    rw [mget_mset, mget_mset] at hq
    have hprev := hI.cfg u.Section prev hp
    have hsct := hI.cfg req.Section sct hg
    split at hq
    · cases hq
      split
      · exact hprev
      · exact hsct
    · split at hq
      · cases hq
        exact hprev
      · exact hI.cfg name q hq
  · intro j v hv
    change mget (mset s.users req.TicketId _) j = some v at hv
    rw [mget_mset] at hv
    split at hv
    · rename_i hj
      cases hv
      rw [hj]
      exact hI.ids _ u hu
    · exact hI.ids j v hv
  · intro j v hv
    change mget (mset s.users req.TicketId _) j = some v at hv
    rw [mget_mset] at hv
    rw [hocc]
    split at hv
    · cases hv
      simp
    · rename_i hj
      have hlive := hI.live j v hv
      have h1 : ¬ (v.Section = req.Section ∧ v.Seat = req.Seat) := by
        intro h
        rw [h.1, h.2, hnew] at hlive
        cases hlive
      have h2 : ¬ (v.Section = u.Section ∧ v.Seat = u.Seat) := fun h =>
        hj (hI.uniq j req.TicketId v u hv hu h.1 h.2)
      simp only [h1, h2, if_false]
      exact hlive
  · intro name k hk
    rw [hocc] at hk
    by_cases h1 : name = req.Section ∧ k = req.Seat
    · exact ⟨req.TicketId, _, mget_mset_same _ _ _, h1.1.symm, h1.2.symm⟩
    · simp only [h1, if_false] at hk
      by_cases h2 : name = u.Section ∧ k = u.Seat
      · simp [h2] at hk
      · simp only [h2, if_false] at hk
        obtain ⟨j, v, e1, e2, e3⟩ := hI.held name k hk
        have hj : j ≠ req.TicketId := by
          intro h
          subst h
          rw [hu] at e1
          cases e1
          exact h2 ⟨e2.symm, e3.symm⟩
        exact ⟨j, v, by
          show mget (mset s.users req.TicketId _) j = some v
          rw [mget_mset_ne _ _ _ _ hj]; exact e1, e2, e3⟩
  · intro id1 id2 u1 u2 h1 h2 hs hn
    change mget (mset s.users req.TicketId _) id1 = some u1 at h1
    change mget (mset s.users req.TicketId _) id2 = some u2 at h2
    rw [mget_mset] at h1 h2
    by_cases e1 : id1 = req.TicketId <;> by_cases e2 : id2 = req.TicketId
    · rw [e1, e2]
    · simp only [e1, e2, if_true, if_false, Option.some.injEq] at h1 h2
      subst h1
      have := hI.live id2 u2 h2
      simp only at hs hn
      rw [← hs, ← hn, hnew] at this
      cases this
    · simp only [e1, e2, if_true, if_false, Option.some.injEq] at h1 h2
      subst h2
      have := hI.live id1 u1 h1
      simp only at hs hn
      rw [hs, hn, hnew] at this
      cases this
    · simp only [e1, e2, if_false] at h1 h2
      exact hI.uniq id1 id2 u1 u2 h1 h2 hs hn

/-- Every `RemoveUser` call from a state of the invariant returns, and keeps
the invariant. -/
theorem Inv_RemoveUser (s : server) (req : RemoveUserRequest)
    (r : (RemoveUserResponse × Option String) × server) (hI : Inv s)
    (h : RemoveUser s req = some r) : Inv r.2 := by
  cases hu : mget s.users req.TicketId with
  | none =>
    rw [RemoveUser_absent s req.TicketId hu] at h
    cases h
    exact hI
  | some u =>
    obtain ⟨sct, hg, _⟩ := mget_of_occupiedAt _ _ _ (hI.live _ u hu)
    rw [RemoveUser_live s req.TicketId u sct hu hg] at h
    cases h
    exact Inv_remove_step s req.TicketId u sct hI hu hg

theorem Inv_ModifySeat (s : server) (req : ModifySeatRequest)
    (r : (ModifySeatResponse × Option String) × server) (hI : Inv s)
    (h : ModifySeat s req = some r) : Inv r.2 := by
  cases hu : mget s.users req.TicketId with
  | none =>
    rw [ModifySeat_absent s req hu] at h
    cases h
    exact hI
  | some u =>
    by_cases hrej : ∀ sct, mget s.sections req.Section = some sct →
        req.Seat > sct.MaxSeats ∨ sct.occ req.Seat = true
    · rw [ModifySeat_rejected s req u hu hrej] at h
      cases h
      exact hI
    · push_neg at hrej
      obtain ⟨sct, hg, hle, hocc⟩ := hrej
      have hfree : sct.occ req.Seat = false := by simpa using hocc
      obtain ⟨prev, hp, _⟩ := mget_of_occupiedAt _ _ _ (hI.live _ u hu)
      rw [ModifySeat_accepted s req u sct prev hu hg (by omega) hfree hp] at h
      cases h
      exact Inv_modify_step s req u sct prev hI hu hg hfree hp

theorem Inv_PurchaseTicket (s : server) (order : List String) (ticketID : String)
    (req : PurchaseRequest) (hI : Inv s) (hp : order.Perm (mkeys s.sections))
    (hfresh : mget s.users ticketID = none) : Inv (PurchaseTicket s order ticketID req).2 := by
  rcases PurchaseTicket_cases s order ticketID req (perm_keys_no_empty s order hI.keys hp) with
    ⟨_, h⟩ | ⟨pre, sec, post, sct, seat, _, _, hg, hf, h⟩
  · rw [h]; exact hI
  · rw [h]; exact Inv_purchase_step s ticketID req sec sct seat hI hfresh hg hf

/-- Every reachable state satisfies the invariant. -/
theorem Reachable.inv {s : server} (h : Reachable s) : Inv s := by
  induction h with
  | init => exact Inv_NewServer
  | purchase s order ticketID req _ hp hfresh ih =>
    exact Inv_PurchaseTicket s order ticketID req ih hp hfresh
  | getReceipt s req _ ih =>
    have : (GetReceipt s req).2 = s := by
      unfold GetReceipt
      split <;> rfl
    rw [this]; exact ih
  | viewSeats s order req _ ih => exact ih
  | removeUser s req r _ hr ih => exact Inv_RemoveUser s req r ih hr
  | modifySeat s req r _ hr ih => exact Inv_ModifySeat s req r ih hr

/-! ## Runs of purchases from a packed state -/

theorem sections_shape (secs : List (String × Section)) (h : mkeys secs = ["A", "B"]) :
    ∃ a b, secs = [("A", a), ("B", b)] := by
  match secs, h with
  | [(ka, a), (kb, b)], h =>
    simp only [mkeys, List.map_cons, List.map_nil, List.cons.injEq, and_true] at h
    obtain ⟨h1, h2⟩ := h
    subst h1 h2
    exact ⟨a, b, rfl⟩

theorem Packed_NewServer : Packed NewServer := by
  refine ⟨rfl, ?_⟩
  intro name sct h
  simp only [NewServer, mget] at h
  split at h
  · cases h
    exact ⟨rfl, by decide, by decide, fun k _ => by simp [Section.occ, mget]⟩
  · split at h
    · cases h
      exact ⟨rfl, by decide, by decide, fun k _ => by simp [Section.occ, mget]⟩
    · cases h

/-- In a packed section the scan stops at the cursor, or finds nothing when
the cursor is past the last seat. -/
theorem findSeat_packed (sct : Section) (hmax : sct.MaxSeats = 10)
    (hfree : ∀ k, sct.CurrentSeat ≤ k → sct.occ k = false) :
    findSeat sct = if sct.CurrentSeat ≤ 10 then some sct.CurrentSeat else none := by
  by_cases hc : sct.CurrentSeat ≤ 10
  · simp only [hc, if_true]
    obtain ⟨found, hf⟩ := scanSeats_of_free sct (sct.MaxSeats + 1 - sct.CurrentSeat).toNat
      sct.CurrentSeat sct.CurrentSeat (le_refl _) (le_refl _) (by omega)
      (hfree _ (le_refl _))
    have hf' : findSeat sct = some found := hf
    obtain ⟨h1, _, _, h4⟩ := findSeat_some sct found hf'
    rcases lt_or_eq_of_le h1 with hlt | heq
    · have := h4 sct.CurrentSeat (le_refl _) hlt
      rw [hfree _ (le_refl _)] at this
      cases this
    · rw [hf', heq]
  · simp only [hc, if_false]
    cases hf : findSeat sct with
    | none => rfl
    | some seat =>
      obtain ⟨h1, h2, _, _⟩ := findSeat_some sct seat hf
      omega

theorem cursor_of_mget (s : server) (name : String) (sct : Section)
    (h : mget s.sections name = some sct) : cursor s name = sct.CurrentSeat := by
  simp [cursor, h]

/-- One purchase from a packed state: it succeeds at the cursor of some section
while a cursor is short of 11, and fails without a write when both are at 11. -/
theorem Packed_purchase (s : server) (order : List String) (ticketID : String)
    (req : PurchaseRequest) (hP : Packed s) (hp : order.Perm ["A", "B"]) :
    (cursor s "A" + cursor s "B" < 22 →
      ∃ sec seat,
        (PurchaseTicket s order ticketID req).1 =
          ({ Message := purchaseMessage sec seat, TicketId := ticketID }, none) ∧
        assigned (PurchaseTicket s order ticketID req) = some (sec, seat) ∧
        seat = cursor s sec ∧
        Packed (PurchaseTicket s order ticketID req).2 ∧
        (∀ n, cursor s n ≤ cursor (PurchaseTicket s order ticketID req).2 n) ∧
        cursor (PurchaseTicket s order ticketID req).2 sec = seat + 1 ∧
        cursor (PurchaseTicket s order ticketID req).2 "A" +
            cursor (PurchaseTicket s order ticketID req).2 "B" =
          cursor s "A" + cursor s "B" + 1) ∧
    (cursor s "A" + cursor s "B" = 22 →
      PurchaseTicket s order ticketID req =
        (({ Message := "No seats available in any section", TicketId := "" },
          some "no seats available"), s)) := by
  obtain ⟨hk, hsec⟩ := hP
  obtain ⟨a, b, hab⟩ := sections_shape s.sections hk
  have hA : mget s.sections "A" = some a := by rw [hab]; simp [mget]
  have hB : mget s.sections "B" = some b := by rw [hab]; simp [mget]
  obtain ⟨ha1, ha2, ha3, ha4⟩ := hsec "A" a hA
  obtain ⟨hb1, hb2, hb3, hb4⟩ := hsec "B" b hB
  have hcA := cursor_of_mget s "A" a hA
  have hcB := cursor_of_mget s "B" b hB
  have hne : "" ∉ order := by
    intro h
    have := hp.subset h
    simp at this
  have hmemA : "A" ∈ order := hp.symm.subset (by simp)
  have hmemB : "B" ∈ order := hp.symm.subset (by simp)
  rcases PurchaseTicket_cases s order ticketID req hne with
    ⟨hnone, h⟩ | ⟨pre, sec, post, sct, seat, hord, _, hg, hf, h⟩
  · have hfa := hnone "A" hmemA a hA
    have hfb := hnone "B" hmemB b hB
    rw [findSeat_packed a ha1 ha4] at hfa
    rw [findSeat_packed b hb1 hb4] at hfb
    have h1 : ¬ a.CurrentSeat ≤ 10 := fun hc => by simp [hc] at hfa
    have h2 : ¬ b.CurrentSeat ≤ 10 := fun hc => by simp [hc] at hfb
    refine ⟨fun hlt => ?_, fun _ => h⟩
    omega
  · obtain ⟨hs1, hs2, hs3, hs4⟩ := hsec sec sct hg
    rw [findSeat_packed sct hs1 hs4] at hf
    have hc : sct.CurrentSeat ≤ 10 := by
      by_contra hc
      simp [hc] at hf
    simp only [hc, if_true, Option.some.injEq] at hf
    have hcs := cursor_of_mget s sec sct hg
    have hsecAB : sec = "A" ∨ sec = "B" := by
      have : sec ∈ order := by rw [hord]; simp
      have := hp.subset this
      simpa using this
    have hcur : ∀ n, cursor (PurchaseTicket s order ticketID req).2 n =
        if n = sec then seat + 1 else cursor s n := by
      intro n
      rw [h]
      simp only [cursor, mget_mset]
      by_cases hn : n = sec
      · simp [hn, Section.take]
      · simp [hn]
    refine ⟨fun _ => ?_, fun h22 => ?_⟩
    · refine ⟨sec, seat, by rw [h], ?_, by rw [hcs, hf], ?_, ?_, ?_, ?_⟩
      · rw [h]
        simp [assigned, assignment, mget_mset_same, ticketOf]
      · rw [h]
        refine ⟨?_, ?_⟩
        · show mkeys (mset s.sections sec (sct.take seat)) = ["A", "B"]
          rw [mkeys_mset _ _ _ _ hg]; exact hk
        · intro name q hq
          change mget (mset s.sections sec (sct.take seat)) name = some q at hq
          rw [mget_mset] at hq
          split at hq
          · cases hq
            refine ⟨hs1, ?_, ?_, ?_⟩
            · simp only [Section.take]; omega
            · simp only [Section.take]; omega
            · intro k hk'
              simp only [Section.take] at hk'
              rw [occ_take]
              have : k ≠ seat := by omega
              simp only [this, if_false]
              exact hs4 k (by omega)
          · exact hsec name q hq
      · intro n
        rw [hcur]
        split
        · rename_i hn
          rw [hn, hcs]; omega
        · exact le_refl _
      · rw [hcur]; simp
      · rw [hcur, hcur]
        rcases hsecAB with e | e
        · subst e
          simp only [if_true]
          rw [if_neg (by decide)]
          omega
        · subst e
          simp only [if_true]
          rw [if_neg (by decide)]
          omega
    · exfalso
      rcases hsecAB with e | e
      · subst e
        rw [hg] at hA; cases hA
        omega
      · subst e
        rw [hg] at hB; cases hB
        omega

/-- A run of purchases from a packed state that fits in the seats left: every
call succeeds, at or past the cursor of its section, and no two calls are
given the same seat of the same section. -/
theorem Packed_run (calls : List PurchaseCall) :
    ∀ s, Packed s → (∀ c ∈ calls, c.order.Perm ["A", "B"]) →
      cursor s "A" + cursor s "B" + calls.length ≤ 22 →
      (∀ r ∈ purchaseAll s calls, r.1.2 = none ∧
        ∃ sec seat, r.1.1.Message = purchaseMessage sec seat ∧
          assigned r = some (sec, seat) ∧ cursor s sec ≤ seat) ∧
      ((purchaseAll s calls).map assigned).Nodup ∧
      Packed (purchaseEnd s calls) ∧
      cursor (purchaseEnd s calls) "A" + cursor (purchaseEnd s calls) "B" =
        cursor s "A" + cursor s "B" + calls.length := by
  induction calls with
  | nil =>
    intro s hP _ _
    simp [purchaseAll, purchaseEnd, hP]
  | cons c rest ih =>
    intro s hP hord hlen
    have hc := hord c (by simp)
    have hlen' : cursor s "A" + cursor s "B" + (rest.length : Int) + 1 ≤ 22 := by
      simp only [List.length_cons] at hlen
      push_cast at hlen
      omega
    obtain ⟨sec, seat, h1, h2, h3, h4, h5, h6, h7⟩ :=
      (Packed_purchase s c.order c.ticketID c.req hP hc).1 (by omega)
    obtain ⟨i1, i2, i3, i4⟩ := ih (PurchaseTicket s c.order c.ticketID c.req).2 h4
      (fun x hx => hord x (by simp [hx])) (by omega)
    refine ⟨?_, ?_, ?_, ?_⟩
    · intro r hr
      simp only [purchaseAll, List.mem_cons] at hr
      rcases hr with hr | hr
      · subst hr
        refine ⟨by rw [h1], sec, seat, by rw [h1], h2, by omega⟩
      · obtain ⟨e1, sec', seat', e2, e3, e4⟩ := i1 r hr
        exact ⟨e1, sec', seat', e2, e3, le_trans (h5 sec') e4⟩
    · simp only [purchaseAll, List.map_cons, List.nodup_cons]
      refine ⟨?_, i2⟩
      intro hmem
      obtain ⟨r, hr, hre⟩ := List.mem_map.mp hmem
      obtain ⟨_, sec', seat', _, e3, e4⟩ := i1 r hr
      rw [h2, e3] at hre
      simp only [Option.some.injEq, Prod.mk.injEq] at hre
      obtain ⟨e5, e6⟩ := hre
      subst e5 e6
      omega
    · exact i3
    · simp only [purchaseEnd, List.length_cons]
      push_cast
      omega

/-! ## ModifySeat on an occupied target -/

/-- A move of a live ticket to a seat that is marked occupied is refused and
writes nothing. -/
theorem ModifySeat_occupied_target (s : server) (id : String) (u : User) (dst : String)
    (new : Int) (hu : mget s.users id = some u) (hocc : occupiedAt s dst new = true) :
    ModifySeat s { TicketId := id, Section := dst, Seat := new } =
      some ((rejectedModify, none), s) := by
  refine ModifySeat_rejected s _ u hu ?_
  intro sct hg
  right
  rw [← occupiedAt_of_mget s dst sct new hg]
  exact hocc

/-! ## Sample states are reachable -/

theorem oneTicket_reachable : Reachable oneTicket :=
  Reachable.purchase NewServer ["A", "B"] (tid 0) bob Reachable.init (List.Perm.refl _)
    (by decide)

theorem twoTickets_reachable : Reachable twoTickets :=
  Reachable.purchase oneTicket ["A", "B"] (tid 1) bob oneTicket_reachable
    (by decide) (by decide)

/-! ## The claims -/

/-- Claim C1 (bijection invariant). In every state reachable from `NewServer` by
`PurchaseTicket` calls with a fresh ticket id and by `ModifySeat`, `RemoveUser`,
`GetReceipt` and `ViewSeats` calls, a seat of a section is marked occupied
exactly when a live ticket holds that section and seat, and two live tickets
that hold the same section and seat are the same ticket. -/
theorem C1_bijection_invariant (s : server) (h : Reachable s) :
    (∀ name seat, occupiedAt s name seat = true ↔
      ∃ id u, mget s.users id = some u ∧ u.Section = name ∧ u.Seat = seat) ∧
    (∀ id1 id2 u1 u2, mget s.users id1 = some u1 → mget s.users id2 = some u2 →
      u1.Section = u2.Section → u1.Seat = u2.Seat → id1 = id2) := by
  have hI := h.inv
  refine ⟨fun name seat => ⟨hI.held name seat, ?_⟩, hI.uniq⟩
  rintro ⟨id, u, hu, rfl, rfl⟩
  exact hI.live id u hu

theorem C1_bijection_invariant_witness :
    Reachable twoTickets ∧
    ((∀ name seat, occupiedAt twoTickets name seat = true ↔
      ∃ id u, mget twoTickets.users id = some u ∧ u.Section = name ∧ u.Seat = seat) ∧
    (∀ id1 id2 u1 u2, mget twoTickets.users id1 = some u1 →
      mget twoTickets.users id2 = some u2 →
      u1.Section = u2.Section → u1.Seat = u2.Seat → id1 = id2)) :=
  ⟨twoTickets_reachable, C1_bijection_invariant twoTickets twoTickets_reachable⟩

/-- Claim C2 (capacity exhaustion). From `NewServer`, whatever order each call
visits the sections in, twenty consecutive `PurchaseTicket` calls all return a
nil error and a success message naming the seat of the ticket they filed, no
two of the twenty are given the same seat of the same section, and the
twenty-first call returns the message "No seats available in any section" with
a non-nil error, leaving the state as it was. -/
theorem C2_capacity_exhaustion (calls : List PurchaseCall) (last : PurchaseCall)
    (hlen : calls.length = 20)
    (hord : ∀ c ∈ calls ++ [last], c.order.Perm (mkeys NewServer.sections)) :
    (∀ r ∈ purchaseAll NewServer calls, r.1.2 = none ∧
      ∃ sec seat, r.1.1.Message = purchaseMessage sec seat ∧ assigned r = some (sec, seat)) ∧
    (purchaseAll NewServer calls).length = 20 ∧
    ((purchaseAll NewServer calls).map assigned).Nodup ∧
    PurchaseTicket (purchaseEnd NewServer calls) last.order last.ticketID last.req =
      (({ Message := "No seats available in any section", TicketId := "" },
        some "no seats available"), purchaseEnd NewServer calls) := by
  have hc0 : cursor NewServer "A" + cursor NewServer "B" = 2 := by decide
  obtain ⟨h1, h2, h3, h4⟩ := Packed_run calls NewServer Packed_NewServer
    (fun c hc => hord c (by simp [hc])) (by rw [hc0, hlen]; decide)
  refine ⟨?_, ?_, h2, ?_⟩
  · intro r hr
    obtain ⟨e1, sec, seat, e2, e3, _⟩ := h1 r hr
    exact ⟨e1, sec, seat, e2, e3⟩
  · rw [← hlen]
    clear hlen hord h1 h2 h3 h4
    generalize NewServer = s
    induction calls generalizing s with
    | nil => rfl
    | cons c rest ih => simp [purchaseAll, ih]
  · refine (Packed_purchase _ last.order last.ticketID last.req h3
      (hord last (by simp))).2 ?_
    rw [h4, hc0, hlen]
    decide

theorem C2_capacity_exhaustion_witness :
    (callsMixed 20).length = 20 ∧
    (∀ c ∈ callsMixed 20 ++ [{ order := ["B", "A"], ticketID := tid 20, req := bob }],
      c.order.Perm (mkeys NewServer.sections)) ∧
    (∀ r ∈ purchaseAll NewServer (callsMixed 20), r.1.2 = none ∧
      ∃ sec seat, r.1.1.Message = purchaseMessage sec seat ∧ assigned r = some (sec, seat)) ∧
    (purchaseAll NewServer (callsMixed 20)).length = 20 ∧
    ((purchaseAll NewServer (callsMixed 20)).map assigned).Nodup ∧
    PurchaseTicket (purchaseEnd NewServer (callsMixed 20)) ["B", "A"] (tid 20) bob =
      (({ Message := "No seats available in any section", TicketId := "" },
        some "no seats available"), purchaseEnd NewServer (callsMixed 20)) := by
  have hlen : (callsMixed 20).length = 20 := by simp [callsMixed]
  have hord : ∀ c ∈ callsMixed 20 ++ [{ order := ["B", "A"], ticketID := tid 20, req := bob }],
      c.order.Perm (mkeys NewServer.sections) := by
    intro c hc
    simp only [callsMixed, List.mem_append, List.mem_map, List.mem_singleton] at hc
    rcases hc with ⟨i, _, rfl⟩ | rfl
    · by_cases hi : i % 2 = 0
      · simp only [hi, if_true]; exact List.Perm.refl _
      · simp only [hi, if_false]; exact List.Perm.swap "A" "B" []
    · exact List.Perm.swap "A" "B" []
  exact ⟨hlen, hord, C2_capacity_exhaustion (callsMixed 20)
    { order := ["B", "A"], ticketID := tid 20, req := bob } hlen hord⟩

/-- Claim C3 (lowest free seat), the code at a stale cursor. After two purchases
into section A and the cancellation of the first ticket, seat 1 of A is free
and in range while the cursor of A is 3; the next purchase, visiting A first,
is given seat 3 of A, not seat 1. -/
theorem C3_stale_cursor_skips_freed_seat :
    assignment twoTickets (tid 0) = some ("A", 1) ∧
    assignment twoTickets (tid 1) = some ("A", 2) ∧
    RemoveUser twoTickets { TicketId := tid 0 } =
      some (({ Message := "User removed successfully" }, none), staleServer) ∧
    occupiedAt staleServer "A" 1 = false ∧
    cursor staleServer "A" = 3 ∧
    (PurchaseTicket staleServer ["A", "B"] (tid 2) bob).1.2 = none ∧
    assigned (PurchaseTicket staleServer ["A", "B"] (tid 2) bob) = some ("A", 3) := by
  decide

/-- Claim C4 (no lost seats), the code on a registry that was full. After twenty
purchases and the cancellation of the ticket at seat 1 of A, that seat is free
and in range, yet the next purchase fails with "No seats available in any
section", in whichever order it visits the sections. -/
theorem C4_freed_seat_is_lost :
    assignment fullServer (tid 0) = some ("A", 1) ∧
    RemoveUser fullServer { TicketId := tid 0 } =
      some (({ Message := "User removed successfully" }, none), reopened) ∧
    occupiedAt reopened "A" 1 = false ∧
    cursor reopened "A" = 11 ∧ cursor reopened "B" = 11 ∧
    PurchaseTicket reopened ["A", "B"] (tid 20) bob =
      (({ Message := "No seats available in any section", TicketId := "" },
        some "no seats available"), reopened) ∧
    PurchaseTicket reopened ["B", "A"] (tid 20) bob =
      (({ Message := "No seats available in any section", TicketId := "" },
        some "no seats available"), reopened) := by
  decide

/-- Claim C5 (lowest-seat-first determinism), the code when the range over the
sections visits B before A. The first purchase from `NewServer` is then given
seat 1 of section B, and `ViewSeats` for section A lists nothing. -/
theorem C5_first_purchase_may_land_in_B :
    (PurchaseTicket NewServer ["B", "A"] (tid 0) bob).1 =
      ({ Message := purchaseMessage "B" 1, TicketId := tid 0 }, none) ∧
    assigned (PurchaseTicket NewServer ["B", "A"] (tid 0) bob) = some ("B", 1) ∧
    (ViewSeats (PurchaseTicket NewServer ["B", "A"] (tid 0) bob).2 [tid 0]
      { Section := "A" }).1.1.Seats = [] := by
  decide

/-- Claim C6 (purchase failure is atomic). In every state whose section names
are not empty, a `PurchaseTicket` call that returns a non-nil error returns
the message "No seats available in any section" and the state it was called
in: the users table and every section, with its occupancy map and cursor,
are as before. -/
theorem C6_purchase_failure_atomic (s : server) (order : List String) (ticketID : String)
    (req : PurchaseRequest) (hnames : "" ∉ mkeys s.sections)
    (hord : order.Perm (mkeys s.sections))
    (hfail : (PurchaseTicket s order ticketID req).1.2 ≠ none) :
    PurchaseTicket s order ticketID req =
      (({ Message := "No seats available in any section", TicketId := "" },
        some "no seats available"), s) := by
  have hne : "" ∉ order := fun h => hnames (hord.subset h)
  rcases PurchaseTicket_cases s order ticketID req hne with
    ⟨_, h⟩ | ⟨pre, sec, post, sct, seat, _, _, _, _, h⟩
  · exact h
  · rw [h] at hfail
    exact absurd rfl hfail

theorem C6_purchase_failure_atomic_witness :
    "" ∉ mkeys fullServer.sections ∧
    (["B", "A"] : List String).Perm (mkeys fullServer.sections) ∧
    (PurchaseTicket fullServer ["B", "A"] (tid 20) bob).1.2 ≠ none ∧
    PurchaseTicket fullServer ["B", "A"] (tid 20) bob =
      (({ Message := "No seats available in any section", TicketId := "" },
        some "no seats available"), fullServer) :=
  ⟨by decide, List.Perm.swap "A" "B" [], by decide,
    C6_purchase_failure_atomic fullServer ["B", "A"] (tid 20) bob (by decide)
      (List.Perm.swap "A" "B" []) (by decide)⟩

/-- Claim C7 (ModifySeat success postcondition). In every reachable state, for
a live ticket `id`, a configured section `dst` and a seat `new` of
`[1, MaxSeats]` that is free in `dst`, `ModifySeat` returns "Seat modified
successfully" with the previous and the updated section and seat; afterwards
the ticket holds `(dst, new)`, its previous seat is free, seat `new` of `dst`
is occupied, every other ticket is as before and every other seat reads as
before. -/
theorem C7_modify_success (s : server) (hR : Reachable s) (id : String) (u : User)
    (dst : String) (sct : Section) (new : Int) (hu : mget s.users id = some u)
    (hg : mget s.sections dst = some sct) (_hlo : 1 ≤ new) (hhi : new ≤ sct.MaxSeats)
    (hfree : sct.occ new = false) :
    ∃ s', ModifySeat s { TicketId := id, Section := dst, Seat := new } =
        some (({ Message := "Seat modified successfully", PreviousSection := u.Section,
                 PreviousSeat := u.Seat, UpdatedSection := dst, UpdatedSeat := new }, none),
              s') ∧
      mget s'.users id = some { u with Section := dst, Seat := new } ∧
      occupiedAt s' u.Section u.Seat = false ∧
      occupiedAt s' dst new = true ∧
      (∀ j, j ≠ id → mget s'.users j = mget s.users j) ∧
      (∀ n k, ¬ (n = dst ∧ k = new) → ¬ (n = u.Section ∧ k = u.Seat) →
        occupiedAt s' n k = occupiedAt s n k) := by
  have hI := hR.inv
  have hlive := hI.live id u hu
  obtain ⟨prev, hp, _⟩ := mget_of_occupiedAt _ _ _ hlive
  have hnew : occupiedAt s dst new = false := by
    rw [occupiedAt_of_mget s dst sct new hg]; exact hfree
  have hdiff : ¬ (u.Section = dst ∧ u.Seat = new) := by
    rintro ⟨e1, e2⟩
    rw [e1, e2, hnew] at hlive
    cases hlive
  have hocc := occupiedAt_moved s
    (mset s.users id { u with Section := dst, Seat := new }) u.Section dst u.Seat new prev sct
    hp hg
  refine ⟨_, ModifySeat_accepted s { TicketId := id, Section := dst, Seat := new } u sct prev
    hu hg hhi hfree hp, ?_, ?_, ?_, ?_, ?_⟩
  · exact mget_mset_same _ _ _
  · rw [hocc]; simp [hdiff]
  · rw [hocc]; simp
  · intro j hj
    exact mget_mset_ne _ _ _ _ hj
  · intro n k h1 h2
    rw [hocc]; simp [h1, h2]

theorem C7_modify_success_witness :
    Reachable oneTicket ∧
    mget oneTicket.users (tid 0) = some (ticketOf (tid 0) bob "A" 1) ∧
    mget oneTicket.sections "B" =
      some { CurrentSeat := 1, MaxSeats := 10, Occupied := [] } ∧
    (1 : Int) ≤ 5 ∧ (5 : Int) ≤ 10 ∧
    ∃ s', ModifySeat oneTicket { TicketId := tid 0, Section := "B", Seat := 5 } =
        some (({ Message := "Seat modified successfully", PreviousSection := "A",
                 PreviousSeat := 1, UpdatedSection := "B", UpdatedSeat := 5 }, none),
              s') ∧
      mget s'.users (tid 0) = some (ticketOf (tid 0) bob "B" 5) ∧
      occupiedAt s' "A" 1 = false ∧
      occupiedAt s' "B" 5 = true ∧
      (∀ j, j ≠ tid 0 → mget s'.users j = mget oneTicket.users j) ∧
      (∀ n k, ¬ (n = "B" ∧ k = 5) → ¬ (n = "A" ∧ k = 1) →
        occupiedAt s' n k = occupiedAt oneTicket n k) :=
  ⟨oneTicket_reachable, by decide, by decide, by decide, by decide,
    C7_modify_success oneTicket oneTicket_reachable (tid 0) (ticketOf (tid 0) bob "A" 1) "B"
      { CurrentSeat := 1, MaxSeats := 10, Occupied := [] } 5 (by decide) (by decide)
      (by decide) (by decide) (by decide)⟩

/-- Claim C8 (ModifySeat rejects out-of-range targets), the code at seat 0 and at
a negative seat. After one purchase at seat 1 of A, `ModifySeat` to seat 0 of
A and to seat -5 of B both return "Seat modified successfully"; the ticket
then holds the seat asked for and that seat is marked occupied. -/
theorem C8_modify_accepts_seat_below_one :
    assignment oneTicket (tid 0) = some ("A", 1) ∧
    (ModifySeat oneTicket { TicketId := tid 0, Section := "A", Seat := 0 }).map Prod.fst =
      some ({ Message := "Seat modified successfully", PreviousSection := "A",
              PreviousSeat := 1, UpdatedSection := "A", UpdatedSeat := 0 }, none) ∧
    assignment (stateAfter oneTicket
      (ModifySeat oneTicket { TicketId := tid 0, Section := "A", Seat := 0 })) (tid 0) =
      some ("A", 0) ∧
    occupiedAt (stateAfter oneTicket
      (ModifySeat oneTicket { TicketId := tid 0, Section := "A", Seat := 0 })) "A" 0 = true ∧
    (ModifySeat oneTicket { TicketId := tid 0, Section := "B", Seat := -5 }).map Prod.fst =
      some ({ Message := "Seat modified successfully", PreviousSection := "A",
              PreviousSeat := 1, UpdatedSection := "B", UpdatedSeat := -5 }, none) ∧
    assignment (stateAfter oneTicket
      (ModifySeat oneTicket { TicketId := tid 0, Section := "B", Seat := -5 })) (tid 0) =
      some ("B", -5) ∧
    occupiedAt (stateAfter oneTicket
      (ModifySeat oneTicket { TicketId := tid 0, Section := "B", Seat := -5 })) "B" (-5) =
      true := by
  decide

/-- Claim C9 (ModifySeat rejects an occupied target). In every reachable state
with two distinct live tickets, `ModifySeat` of the first to the section and
seat of the second returns "Invalid or already occupied seat" with a nil error
and the state it was called in. -/
theorem C9_modify_rejects_occupied_target (s : server) (hR : Reachable s) (id1 id2 : String)
    (u1 u2 : User) (_hne : id1 ≠ id2) (h1 : mget s.users id1 = some u1)
    (h2 : mget s.users id2 = some u2) :
    ModifySeat s { TicketId := id1, Section := u2.Section, Seat := u2.Seat } =
      some (({ Message := "Invalid or already occupied seat", PreviousSection := "",
               PreviousSeat := 0, UpdatedSection := "", UpdatedSeat := 0 }, none), s) :=
  ModifySeat_occupied_target s id1 u1 u2.Section u2.Seat h1 (hR.inv.live id2 u2 h2)

theorem C9_modify_rejects_occupied_target_witness :
    Reachable twoTickets ∧ tid 0 ≠ tid 1 ∧
    mget twoTickets.users (tid 0) = some (ticketOf (tid 0) bob "A" 1) ∧
    mget twoTickets.users (tid 1) = some (ticketOf (tid 1) bob "A" 2) ∧
    ModifySeat twoTickets { TicketId := tid 0, Section := "A", Seat := 2 } =
      some (({ Message := "Invalid or already occupied seat", PreviousSection := "",
               PreviousSeat := 0, UpdatedSection := "", UpdatedSeat := 0 }, none),
            twoTickets) :=
  ⟨twoTickets_reachable, by decide, by decide, by decide,
    C9_modify_rejects_occupied_target twoTickets twoTickets_reachable (tid 0) (tid 1)
      (ticketOf (tid 0) bob "A" 1) (ticketOf (tid 1) bob "A" 2) (by decide) (by decide)
      (by decide)⟩

/-- Claim C10 as stated fails: after one purchase at seat 1 of A, `ModifySeat`
of that ticket to seat 1 of A does not succeed; it returns "Invalid or already
occupied seat" with empty previous and updated fields. -/
theorem C10_own_seat_counterexample :
    Reachable oneTicket ∧
    assignment oneTicket (tid 0) = some ("A", 1) ∧
    ModifySeat oneTicket { TicketId := tid 0, Section := "A", Seat := 1 } =
      some (({ Message := "Invalid or already occupied seat", PreviousSection := "",
               PreviousSeat := 0, UpdatedSection := "", UpdatedSeat := 0 }, none),
            oneTicket) :=
  ⟨oneTicket_reachable, by decide, by decide⟩

/-- Claim C10, amended (ModifySeat to the ticket's own seat is refused). In every
reachable state, `ModifySeat` of a live ticket to the section and seat it
already holds returns "Invalid or already occupied seat" with empty previous
and updated fields and a nil error, and returns the state it was called in. -/
theorem C10_own_seat_rejected (s : server) (hR : Reachable s) (id : String) (u : User)
    (hu : mget s.users id = some u) :
    ModifySeat s { TicketId := id, Section := u.Section, Seat := u.Seat } =
      some (({ Message := "Invalid or already occupied seat", PreviousSection := "",
               PreviousSeat := 0, UpdatedSection := "", UpdatedSeat := 0 }, none), s) :=
  ModifySeat_occupied_target s id u u.Section u.Seat hu (hR.inv.live id u hu)

theorem C10_own_seat_rejected_witness :
    Reachable twoTickets ∧
    mget twoTickets.users (tid 1) = some (ticketOf (tid 1) bob "A" 2) ∧
    ModifySeat twoTickets { TicketId := tid 1, Section := "A", Seat := 2 } =
      some (({ Message := "Invalid or already occupied seat", PreviousSection := "",
               PreviousSeat := 0, UpdatedSection := "", UpdatedSeat := 0 }, none),
            twoTickets) :=
  ⟨twoTickets_reachable, by decide,
    C10_own_seat_rejected twoTickets twoTickets_reachable (tid 1)
      (ticketOf (tid 1) bob "A" 2) (by decide)⟩

/-! ## Keys of the users table and the seat ceiling -/

theorem mget_eq_none_iff {κ ν : Type} [DecidableEq κ] (m : List (κ × ν)) (k : κ) :
    mget m k = none ↔ k ∉ mkeys m := by
  constructor
  · intro h hmem
    obtain ⟨v, hv⟩ := mget_of_mem_mkeys m k hmem
    rw [h] at hv
    cases hv
  · intro h
    cases hg : mget m k with
    | none => rfl
    | some v => exact absurd (mem_mkeys_of_mget m k v hg) h

theorem mkeys_mset_fresh {κ ν : Type} [DecidableEq κ] (m : List (κ × ν)) (k : κ) (v : ν)
    (h : mget m k = none) : mkeys (mset m k v) = mkeys m ++ [k] := by
  induction m with
  | nil => simp [mset, mkeys]
  | cons e rest ih =>
    obtain ⟨k', v'⟩ := e
    by_cases hk : k' = k
    · simp [mget, hk] at h
    · simp only [mget, hk, if_false] at h
      have := ih h
      simp only [mkeys] at this
      simp [mset, mkeys, hk, this]

theorem mkeys_mdel {κ ν : Type} [DecidableEq κ] (m : List (κ × ν)) (k : κ) :
    mkeys (mdel m k) = (mkeys m).filter fun j => decide (j ≠ k) := by
  induction m with
  | nil => simp [mdel, mkeys]
  | cons e rest ih =>
    obtain ⟨k', v'⟩ := e
    simp only [mkeys] at ih
    by_cases hk : k' = k
    · simp [mdel, mkeys, hk, ih]
    · simp [mdel, mkeys, hk, ih]

theorem Tidy_NewServer : Tidy NewServer where
  nodup := by simp [NewServer, mkeys]
  upper := by intro id u h; simp [NewServer, mget] at h

theorem Tidy_purchase_step (s : server) (ticketID : String) (req : PurchaseRequest)
    (sec : String) (sct : Section) (seat : Int) (hI : Inv s) (hT : Tidy s)
    (hfresh : mget s.users ticketID = none) (hg : mget s.sections sec = some sct)
    (hf : findSeat sct = some seat) :
    Tidy ⟨mset s.users ticketID (ticketOf ticketID req sec seat),
      mset s.sections sec (sct.take seat)⟩ := by
  obtain ⟨_, hhi, _, _⟩ := findSeat_some sct seat hf
  obtain ⟨hmax, _, _⟩ := hI.cfg sec sct hg
  refine ⟨?_, ?_⟩
  · show (mkeys (mset s.users ticketID _)).Nodup
    rw [mkeys_mset_fresh _ _ _ hfresh]
    refine List.Nodup.append hT.nodup (List.nodup_singleton _) ?_
    intro x hx hx'
    rw [List.mem_singleton] at hx'
    subst hx'
    exact (mget_eq_none_iff _ _).mp hfresh hx
  · intro id u hu
    change mget (mset s.users ticketID _) id = some u at hu
    rw [mget_mset] at hu
    split at hu
    · cases hu
      simp only [ticketOf]
      omega
    · exact hT.upper id u hu

theorem Tidy_remove_step (s : server) (id : String) (secs : List (String × Section))
    (hT : Tidy s) : Tidy ⟨mdel s.users id, secs⟩ := by
  refine ⟨?_, ?_⟩
  · show (mkeys (mdel s.users id)).Nodup
    rw [mkeys_mdel]
    exact hT.nodup.filter _
  · intro j v hv
    change mget (mdel s.users id) j = some v at hv
    rw [mget_mdel] at hv
    split at hv
    · cases hv
    · exact hT.upper j v hv

theorem Tidy_modify_step (s : server) (req : ModifySeatRequest) (u : User)
    (secs : List (String × Section)) (hT : Tidy s)
    (hu : mget s.users req.TicketId = some u) (hle : req.Seat ≤ 10) :
    Tidy ⟨mset s.users req.TicketId { u with Section := req.Section, Seat := req.Seat },
      secs⟩ := by
  refine ⟨?_, ?_⟩
  · show (mkeys (mset s.users req.TicketId _)).Nodup
    rw [mkeys_mset _ _ _ _ hu]
    exact hT.nodup
  · intro j v hv
    change mget (mset s.users req.TicketId _) j = some v at hv
    rw [mget_mset] at hv
    split at hv
    · cases hv
      exact hle
    · exact hT.upper j v hv

/-- Every reachable state is tidy. -/
theorem Reachable.tidy {s : server} (h : Reachable s) : Tidy s := by
  induction h with
  | init => exact Tidy_NewServer
  | purchase s order ticketID req hR hp hfresh ih =>
    have hI := hR.inv
    rcases PurchaseTicket_cases s order ticketID req
        (perm_keys_no_empty s order hI.keys hp) with
      ⟨_, h⟩ | ⟨pre, sec, post, sct, seat, _, _, hg, hf, h⟩
    · rw [h]; exact ih
    · rw [h]; exact Tidy_purchase_step s ticketID req sec sct seat hI ih hfresh hg hf
  | getReceipt s req _ ih =>
    have : (GetReceipt s req).2 = s := by
      unfold GetReceipt
      split <;> rfl
    rw [this]; exact ih
  | viewSeats s order req _ ih => exact ih
  | removeUser s req r hR hr ih =>
    have hI := hR.inv
    cases hu : mget s.users req.TicketId with
    | none =>
      rw [RemoveUser_absent s req.TicketId hu] at hr
      cases hr
      exact ih
    | some u =>
      obtain ⟨sct, hg, _⟩ := mget_of_occupiedAt _ _ _ (hI.live _ u hu)
      rw [RemoveUser_live s req.TicketId u sct hu hg] at hr
      cases hr
      exact Tidy_remove_step s req.TicketId _ ih
  | modifySeat s req r hR hr ih =>
    have hI := hR.inv
    cases hu : mget s.users req.TicketId with
    | none =>
      rw [ModifySeat_absent s req hu] at hr
      cases hr
      exact ih
    | some u =>
      by_cases hrej : ∀ sct, mget s.sections req.Section = some sct →
          req.Seat > sct.MaxSeats ∨ sct.occ req.Seat = true
      · rw [ModifySeat_rejected s req u hu hrej] at hr
        cases hr
        exact ih
      · push_neg at hrej
        obtain ⟨sct, hg, hle, hocc⟩ := hrej
        have hfree : sct.occ req.Seat = false := by simpa using hocc
        obtain ⟨prev, hp, _⟩ := mget_of_occupiedAt _ _ _ (hI.live _ u hu)
        rw [ModifySeat_accepted s req u sct prev hu hg (by omega) hfree hp] at hr
        cases hr
        have hmax := (hI.cfg req.Section sct hg).1
        exact Tidy_modify_step s req u _ ih hu (by omega)

/-! ## An accepted move, in one statement -/

/-- A move of a live ticket to a free seat at or below `MaxSeats` of a
configured section, from a state of the invariant: the call returns, and the
occupancy of the new state is that of the old one with the two seats
switched. -/
theorem ModifySeat_move (s : server) (hI : Inv s) (id : String) (u : User) (dst : String)
    (sct : Section) (new : Int) (hu : mget s.users id = some u)
    (hg : mget s.sections dst = some sct) (hhi : new ≤ sct.MaxSeats)
    (hfree : sct.occ new = false) :
    ∃ prev, mget s.sections u.Section = some prev ∧
      ModifySeat s { TicketId := id, Section := dst, Seat := new } =
        some (({ Message := "Seat modified successfully", PreviousSection := u.Section,
                 PreviousSeat := u.Seat, UpdatedSection := dst, UpdatedSeat := new }, none),
              movedState s id u prev dst new sct) ∧
      (∀ n k, occupiedAt (movedState s id u prev dst new sct) n k =
        if n = dst ∧ k = new then true
        else if n = u.Section ∧ k = u.Seat then false else occupiedAt s n k) ∧
      Inv (movedState s id u prev dst new sct) := by
  obtain ⟨prev, hp, _⟩ := mget_of_occupiedAt _ _ _ (hI.live id u hu)
  refine ⟨prev, hp, ?_, ?_, ?_⟩
  · exact ModifySeat_accepted s { TicketId := id, Section := dst, Seat := new } u sct prev
      hu hg hhi hfree hp
  · intro n k
    exact occupiedAt_moved s _ u.Section dst u.Seat new prev sct hp hg n k
  · exact Inv_modify_step s { TicketId := id, Section := dst, Seat := new } u sct prev hI hu hg
      hfree hp

/-- Claim C11 (modify round trip). In every reachable state, for a live ticket
`id` holding `(u.Section, u.Seat)` and a free seat `new` of `[1, MaxSeats]` in
a configured section `dst`, `ModifySeat` to `(dst, new)` and then `ModifySeat`
back to `(u.Section, u.Seat)` both return "Seat modified successfully", and in
the final state every seat of every section reads as before the first call and
every ticket id files the record it filed before. -/
theorem C11_modify_round_trip (s : server) (hR : Reachable s) (id : String) (u : User)
    (dst : String) (sct : Section) (new : Int) (hu : mget s.users id = some u)
    (hg : mget s.sections dst = some sct) (_hlo : 1 ≤ new) (hhi : new ≤ sct.MaxSeats)
    (hfree : sct.occ new = false) :
    ∃ s1 s2,
      ModifySeat s { TicketId := id, Section := dst, Seat := new } =
        some (({ Message := "Seat modified successfully", PreviousSection := u.Section,
                 PreviousSeat := u.Seat, UpdatedSection := dst, UpdatedSeat := new }, none),
              s1) ∧
      ModifySeat s1 { TicketId := id, Section := u.Section, Seat := u.Seat } =
        some (({ Message := "Seat modified successfully", PreviousSection := dst,
                 PreviousSeat := new, UpdatedSection := u.Section, UpdatedSeat := u.Seat },
               none), s2) ∧
      (∀ n k, occupiedAt s2 n k = occupiedAt s n k) ∧
      (∀ j, mget s2.users j = mget s.users j) := by
  have hI := hR.inv
  have hT := hR.tidy
  have hlive := hI.live id u hu
  have hnew : occupiedAt s dst new = false := by
    rw [occupiedAt_of_mget s dst sct new hg]; exact hfree
  have hdiff : ¬ (u.Section = dst ∧ u.Seat = new) := by
    rintro ⟨e1, e2⟩
    rw [e1, e2, hnew] at hlive
    cases hlive
  obtain ⟨prev, hp, hm1, hocc1, hI1⟩ := ModifySeat_move s hI id u dst sct new hu hg hhi hfree
  have hu1 : mget (movedState s id u prev dst new sct).users id =
      some { u with Section := dst, Seat := new } := mget_mset_same _ _ _
  have hback : occupiedAt (movedState s id u prev dst new sct) u.Section u.Seat = false := by
    rw [hocc1]; simp [hdiff]
  have hkey : u.Section ∈ mkeys (movedState s id u prev dst new sct).sections := by
    rw [hI1.keys, ← hI.keys]
    exact mem_mkeys_of_mget _ _ _ hp
  obtain ⟨sct2, hg2⟩ := mget_of_mem_mkeys _ _ hkey
  have hfree2 : sct2.occ u.Seat = false := by
    rw [← occupiedAt_of_mget _ u.Section sct2 u.Seat hg2]; exact hback
  have hhi2 : u.Seat ≤ sct2.MaxSeats := by
    rw [(hI1.cfg u.Section sct2 hg2).1]
    exact hT.upper id u hu
  obtain ⟨prev2, _, hm2, hocc2, _⟩ := ModifySeat_move (movedState s id u prev dst new sct) hI1
    id { u with Section := dst, Seat := new } u.Section sct2 u.Seat hu1 hg2 hhi2 hfree2
  refine ⟨_, _, hm1, hm2, ?_, ?_⟩
  · intro n k
    rw [hocc2, hocc1]
    by_cases h1 : n = u.Section ∧ k = u.Seat
    · obtain ⟨e1, e2⟩ := h1
      subst e1 e2
      simp [hlive]
    · by_cases h2 : n = dst ∧ k = new
      · obtain ⟨e1, e2⟩ := h2
        subst e1 e2
        simp [h1, hnew]
      · simp [h1, h2]
  · intro j
    show mget (mset (mset s.users id _) id _) j = mget s.users j
    rw [mget_mset]
    by_cases hj : j = id
    · subst hj
      simp [hu]
    · simp only [hj, if_false]
      exact mget_mset_ne _ _ _ _ hj

theorem C11_modify_round_trip_witness :
    Reachable oneTicket ∧
    mget oneTicket.users (tid 0) = some (ticketOf (tid 0) bob "A" 1) ∧
    mget oneTicket.sections "B" =
      some { CurrentSeat := 1, MaxSeats := 10, Occupied := [] } ∧
    (1 : Int) ≤ 5 ∧ (5 : Int) ≤ 10 ∧
    ∃ s1 s2,
      ModifySeat oneTicket { TicketId := tid 0, Section := "B", Seat := 5 } =
        some (({ Message := "Seat modified successfully", PreviousSection := "A",
                 PreviousSeat := 1, UpdatedSection := "B", UpdatedSeat := 5 }, none),
              s1) ∧
      ModifySeat s1 { TicketId := tid 0, Section := "A", Seat := 1 } =
        some (({ Message := "Seat modified successfully", PreviousSection := "B",
                 PreviousSeat := 5, UpdatedSection := "A", UpdatedSeat := 1 },
               none), s2) ∧
      (∀ n k, occupiedAt s2 n k = occupiedAt oneTicket n k) ∧
      (∀ j, mget s2.users j = mget oneTicket.users j) :=
  ⟨oneTicket_reachable, by decide, by decide, by decide, by decide,
    C11_modify_round_trip oneTicket oneTicket_reachable (tid 0) (ticketOf (tid 0) bob "A" 1)
      "B" { CurrentSeat := 1, MaxSeats := 10, Occupied := [] } 5 (by decide) (by decide)
      (by decide) (by decide) (by decide)⟩

/-! ## Counting occupied seats -/

theorem mem_occupiedSeats (sec : Section) (k : Int) :
    k ∈ occupiedSeats sec ↔ sec.occ k = true := by
  simp only [occupiedSeats, List.mem_filter, List.mem_dedup]
  constructor
  · exact fun h => h.2
  · intro h
    refine ⟨?_, h⟩
    cases hg : mget sec.Occupied k with
    | none => simp [Section.occ, hg] at h
    | some v => exact mem_mkeys_of_mget _ _ _ hg

theorem nodup_occupiedSeats (sec : Section) : (occupiedSeats sec).Nodup :=
  (List.nodup_dedup _).filter _

/-- Releasing an occupied seat leaves one occupied seat fewer in the section. -/
theorem length_occupiedSeats_release (sec : Section) (seat : Int) (h : sec.occ seat = true) :
    (occupiedSeats (sec.release seat)).length + 1 = (occupiedSeats sec).length := by
  have hnot : seat ∉ occupiedSeats (sec.release seat) := by
    rw [mem_occupiedSeats, occ_release]
    simp
  have hperm : (occupiedSeats sec).Perm (seat :: occupiedSeats (sec.release seat)) := by
    rw [List.perm_ext_iff_of_nodup (nodup_occupiedSeats sec)
      (List.nodup_cons.mpr ⟨hnot, nodup_occupiedSeats _⟩)]
    intro k
    rw [List.mem_cons, mem_occupiedSeats, mem_occupiedSeats, occ_release]
    by_cases hk : k = seat
    · subst hk
      simp [h]
    · simp [hk]
  rw [hperm.length_eq, List.length_cons]

theorem occupiedCount_of_keys (s : server) (hk : mkeys s.sections = ["A", "B"]) :
    occupiedCount s = occupiedIn s "A" + occupiedIn s "B" := by
  simp [occupiedCount, hk]

theorem occupiedIn_mset (users : List (String × User)) (secs : List (String × Section))
    (name : String) (sct : Section) (n : String) :
    occupiedIn ⟨users, mset secs name sct⟩ n =
      if n = name then (occupiedSeats sct).length else occupiedIn ⟨users, secs⟩ n := by
  simp only [occupiedIn, mget_mset]
  by_cases h : n = name <;> simp [h]

/-- Claim C12 (cancel removes the ticket and frees its seat together). In every
reachable state, `RemoveUser` of a live ticket returns "User removed
successfully"; afterwards its id is not in the users table, its seat reads
free, the number of occupied seats is one less than before, every other
ticket is as before and every other seat reads as before. -/
theorem C12_cancel_frees_seat (s : server) (hR : Reachable s) (id : String) (u : User)
    (hu : mget s.users id = some u) :
    ∃ s', RemoveUser s { TicketId := id } =
        some (({ Message := "User removed successfully" }, none), s') ∧
      mget s'.users id = none ∧
      occupiedAt s' u.Section u.Seat = false ∧
      occupiedCount s' + 1 = occupiedCount s ∧
      (∀ j, j ≠ id → mget s'.users j = mget s.users j) ∧
      (∀ n k, ¬ (n = u.Section ∧ k = u.Seat) → occupiedAt s' n k = occupiedAt s n k) := by
  have hI := hR.inv
  obtain ⟨sct, hg, hocc⟩ := mget_of_occupiedAt _ _ _ (hI.live id u hu)
  have hrel := occupiedAt_released s (mdel s.users id) u.Section u.Seat sct hg
  have hI' := Inv_remove_step s id u sct hI hu hg
  refine ⟨_, RemoveUser_live s id u sct hu hg, mget_mdel_same _ _, ?_, ?_, ?_, ?_⟩
  · rw [hrel]; simp
  · rw [occupiedCount_of_keys _ hI'.keys, occupiedCount_of_keys s hI.keys,
      occupiedIn_mset, occupiedIn_mset]
    have hlen := length_occupiedSeats_release sct u.Seat hocc
    have hin : occupiedIn s u.Section = (occupiedSeats sct).length := by
      simp [occupiedIn, hg]
    have hAB : u.Section = "A" ∨ u.Section = "B" := by
      have := mem_mkeys_of_mget _ _ _ hg
      rw [hI.keys] at this
      simpa using this
    have hs : ∀ n, occupiedIn ⟨mdel s.users id, s.sections⟩ n = occupiedIn s n := fun _ => rfl
    rw [hs, hs]
    rcases hAB with e | e
    · rw [e] at hin ⊢
      rw [if_pos rfl, if_neg (by decide)]
      omega
    · rw [e] at hin ⊢
      rw [if_neg (by decide), if_pos rfl]
      omega
  · intro j hj
    exact mget_mdel_ne _ _ _ hj
  · intro n k hnk
    rw [hrel]; simp [hnk]

theorem C12_cancel_frees_seat_witness :
    Reachable twoTickets ∧
    mget twoTickets.users (tid 0) = some (ticketOf (tid 0) bob "A" 1) ∧
    ∃ s', RemoveUser twoTickets { TicketId := tid 0 } =
        some (({ Message := "User removed successfully" }, none), s') ∧
      mget s'.users (tid 0) = none ∧
      occupiedAt s' "A" 1 = false ∧
      occupiedCount s' + 1 = occupiedCount twoTickets ∧
      (∀ j, j ≠ tid 0 → mget s'.users j = mget twoTickets.users j) ∧
      (∀ n k, ¬ (n = "A" ∧ k = 1) → occupiedAt s' n k = occupiedAt twoTickets n k) :=
  ⟨twoTickets_reachable, by decide,
    C12_cancel_frees_seat twoTickets twoTickets_reachable (tid 0)
      (ticketOf (tid 0) bob "A" 1) (by decide)⟩

/-! ## Ticket ids that are not live -/

/-- After a `RemoveUser` call that returned, the id it was given is not live. -/
theorem RemoveUser_not_live (s0 s : server) (id : String)
    (resp : RemoveUserResponse × Option String)
    (h : RemoveUser s0 { TicketId := id } = some (resp, s)) : mget s.users id = none := by
  cases hu : mget s0.users id with
  | none =>
    rw [RemoveUser_absent s0 id hu] at h
    cases h
    exact hu
  | some u =>
    cases hg : mget s0.sections u.Section with
    | none => simp [RemoveUser, hu, hg] at h
    | some sct =>
      rw [RemoveUser_live s0 id u sct hu hg] at h
      cases h
      exact mget_mdel_same _ _

/-- Claim C13 (operations on a ticket id that is not live). In every state, for
an id that is not a key of the users table, and in particular for the id a
`RemoveUser` call was just given, `GetReceipt` returns no receipt and the error
"ticket ID not found", `RemoveUser` returns "Ticket ID not found", `ModifySeat`
returns "Ticket ID not found" for every section and seat, and each of the
three returns the state it was called in. -/
theorem C13_non_live_id (s : server) (id : String)
    (h : mget s.users id = none ∨
      ∃ s0 resp, RemoveUser s0 { TicketId := id } = some (resp, s)) :
    GetReceipt s { TicketId := id } = ((none, some "ticket ID not found"), s) ∧
    RemoveUser s { TicketId := id } =
      some (({ Message := "Ticket ID not found" }, none), s) ∧
    ∀ dst new, ModifySeat s { TicketId := id, Section := dst, Seat := new } =
      some (({ Message := "Ticket ID not found", PreviousSection := "", PreviousSeat := 0,
               UpdatedSection := "", UpdatedSeat := 0 }, none), s) := by
  have hnone : mget s.users id = none := by
    rcases h with h | ⟨s0, resp, h⟩
    · exact h
    · exact RemoveUser_not_live s0 s id resp h
  refine ⟨?_, RemoveUser_absent s id hnone, fun dst new => ?_⟩
  · simp [GetReceipt, hnone]
  · exact ModifySeat_absent s { TicketId := id, Section := dst, Seat := new } hnone

theorem C13_non_live_id_witness :
    (mget staleServer.users (tid 0) = none ∨
      ∃ s0 resp, RemoveUser s0 { TicketId := tid 0 } = some (resp, staleServer)) ∧
    (GetReceipt staleServer { TicketId := tid 0 } =
      ((none, some "ticket ID not found"), staleServer) ∧
    RemoveUser staleServer { TicketId := tid 0 } =
      some (({ Message := "Ticket ID not found" }, none), staleServer) ∧
    ∀ dst new, ModifySeat staleServer { TicketId := tid 0, Section := dst, Seat := new } =
      some (({ Message := "Ticket ID not found", PreviousSection := "", PreviousSeat := 0,
               UpdatedSection := "", UpdatedSeat := 0 }, none), staleServer)) :=
  have h : mget staleServer.users (tid 0) = none ∨
      ∃ s0 resp, RemoveUser s0 { TicketId := tid 0 } = some (resp, staleServer) :=
    Or.inr ⟨twoTickets, ({ Message := "User removed successfully" }, none), by decide⟩
  ⟨h, C13_non_live_id staleServer (tid 0) h⟩

/-- Claim C14 (purchase and receipt round trip). In every state, for every
request and every order of visiting the sections, a `PurchaseTicket` call that
returns a nil error returns the id `ticketID` and a message naming a section
and seat; `GetReceipt` for that id right afterwards returns a nil error, the
state unchanged, and a receipt with that id, the user name
`FirstName ++ " " ++ LastName`, the requested `From` and `To`, the fare 20 and
that section and seat. -/
theorem C14_purchase_receipt_round_trip (s : server) (order : List String)
    (ticketID : String) (req : PurchaseRequest)
    (hok : (PurchaseTicket s order ticketID req).1.2 = none) :
    ∃ sec seat,
      (PurchaseTicket s order ticketID req).1.1 =
        { Message := purchaseMessage sec seat, TicketId := ticketID } ∧
      assigned (PurchaseTicket s order ticketID req) = some (sec, seat) ∧
      GetReceipt (PurchaseTicket s order ticketID req).2 { TicketId := ticketID } =
        ((some { TicketId := ticketID, From := req.From, To := req.To,
                 User := req.FirstName ++ " " ++ req.LastName, Price := 20,
                 Section := sec, Seat := seat }, none),
         (PurchaseTicket s order ticketID req).2) := by
  by_cases hst : (rangeSections order
      { sectionName := "", seatNumber := 0, sections := s.sections }).sectionName = ""
  · simp [PurchaseTicket, hst] at hok
  · refine ⟨(rangeSections order
        { sectionName := "", seatNumber := 0, sections := s.sections }).sectionName,
      (rangeSections order
        { sectionName := "", seatNumber := 0, sections := s.sections }).seatNumber, ?_, ?_, ?_⟩
    · simp only [PurchaseTicket, hst, if_false]
    · simp [PurchaseTicket, hst, assigned, assignment, mget_mset_same]
    · simp [PurchaseTicket, hst, GetReceipt, mget_mset_same]

theorem C14_purchase_receipt_round_trip_witness :
    (PurchaseTicket oneTicket ["B", "A"] (tid 1) blank).1.2 = none ∧
    ∃ sec seat,
      (PurchaseTicket oneTicket ["B", "A"] (tid 1) blank).1.1 =
        { Message := purchaseMessage sec seat, TicketId := tid 1 } ∧
      assigned (PurchaseTicket oneTicket ["B", "A"] (tid 1) blank) = some (sec, seat) ∧
      GetReceipt (PurchaseTicket oneTicket ["B", "A"] (tid 1) blank).2 { TicketId := tid 1 } =
        ((some { TicketId := tid 1, From := blank.From, To := blank.To,
                 User := blank.FirstName ++ " " ++ blank.LastName, Price := 20,
                 Section := sec, Seat := seat }, none),
         (PurchaseTicket oneTicket ["B", "A"] (tid 1) blank).2) :=
  ⟨by decide, C14_purchase_receipt_round_trip oneTicket ["B", "A"] (tid 1) blank (by decide)⟩

/-! ## The listing of a section -/

theorem rangeUsers_eq (users : List (String × User)) (wanted : String) (order : List String) :
    ∀ acc, rangeUsers users wanted order acc = acc ++ order.filterMap (listed users wanted) := by
  induction order with
  | nil => intro acc; simp [rangeUsers]
  | cons id rest ih =>
    intro acc
    cases hg : mget users id with
    | none => simp [rangeUsers, hg, ih, listed]
    | some u =>
      by_cases hw : u.Section = wanted
      · simp [rangeUsers, hg, ih, listed, hw, seatEntry]
      · simp [rangeUsers, hg, ih, listed, hw]

theorem mget_of_mem (users : List (String × User)) (hnd : (mkeys users).Nodup) (id : String)
    (u : User) (h : (id, u) ∈ users) : mget users id = some u := by
  induction users with
  | nil => simp at h
  | cons e rest ih =>
    obtain ⟨k, v⟩ := e
    simp only [mkeys, List.map_cons, List.nodup_cons] at hnd
    rcases List.mem_cons.mp h with h | h
    · cases h
      simp [mget]
    · have hk : k ≠ id := by
        intro e
        subst e
        exact hnd.1 (List.mem_map.mpr ⟨(k, u), h, rfl⟩)
      simp only [mget, hk, if_false]
      exact ih hnd.2 h

theorem mem_of_mget (users : List (String × User)) (id : String) (u : User)
    (h : mget users id = some u) : (id, u) ∈ users := by
  induction users with
  | nil => simp [mget] at h
  | cons e rest ih =>
    obtain ⟨k, v⟩ := e
    by_cases hk : k = id
    · simp only [mget, hk, if_true, Option.some.injEq] at h
      simp [hk, h]
    · simp only [mget, hk, if_false] at h
      exact List.mem_cons_of_mem _ (ih h)

theorem listed_keys (wanted : String) (users : List (String × User))
    (hnd : (mkeys users).Nodup) :
    (mkeys users).filterMap (listed users wanted) =
      ((users.filter fun p => p.2.Section = wanted).map Prod.snd).map seatEntry := by
  induction users with
  | nil => simp [mkeys]
  | cons e rest ih =>
    obtain ⟨k, v⟩ := e
    have hnd' := hnd
    simp only [mkeys, List.map_cons, List.nodup_cons] at hnd'
    have htail : (mkeys rest).filterMap (listed ((k, v) :: rest) wanted) =
        (mkeys rest).filterMap (listed rest wanted) := by
      apply List.filterMap_congr
      intro id hid
      have hk : k ≠ id := by
        intro e
        subst e
        exact hnd'.1 hid
      simp [listed, mget, hk]
    have hrest := ih hnd'.2
    have hhead : listed ((k, v) :: rest) wanted k =
        if v.Section = wanted then some (seatEntry v) else none := by
      simp [listed, mget]
    show List.filterMap (listed ((k, v) :: rest) wanted) (k :: mkeys rest) = _
    rw [List.filterMap_cons, hhead, htail, hrest]
    by_cases hw : v.Section = wanted
    · simp [hw, List.filter_cons]
    · simp [hw, List.filter_cons]

theorem mem_ticketsIn (s : server) (hnd : (mkeys s.users).Nodup) (name : String) (u : User) :
    u ∈ ticketsIn s name ↔ ∃ id, mget s.users id = some u ∧ u.Section = name := by
  simp only [ticketsIn, List.mem_map, List.mem_filter, decide_eq_true_eq]
  constructor
  · rintro ⟨⟨id, v⟩, ⟨hmem, hsec⟩, rfl⟩
    exact ⟨id, mget_of_mem _ hnd id v hmem, hsec⟩
  · rintro ⟨id, hg, hsec⟩
    exact ⟨(id, u), ⟨mem_of_mget _ id u hg, hsec⟩, rfl⟩

/-- In a state of the invariant the seats of the live tickets of a section are
its occupied seats, each once. -/
theorem seats_ticketsIn_perm (s : server) (hI : Inv s) (hT : Tidy s) (name : String)
    (sct : Section) (hg : mget s.sections name = some sct) :
    ((ticketsIn s name).map fun u => u.Seat).Perm (occupiedSeats sct) := by
  have hnd : ((ticketsIn s name).map fun u => u.Seat).Nodup := by
    have hpairs : s.users.Nodup := List.Nodup.of_map Prod.fst hT.nodup
    have hfil : (s.users.filter fun p => p.2.Section = name).Nodup := hpairs.filter _
    simp only [ticketsIn, List.map_map]
    refine List.Nodup.map_on ?_ hfil
    rintro ⟨i1, u1⟩ h1 ⟨i2, u2⟩ h2 heq
    simp only [List.mem_filter, decide_eq_true_eq] at h1 h2
    simp only [Function.comp] at heq
    have g1 := mget_of_mem _ hT.nodup i1 u1 h1.1
    have g2 := mget_of_mem _ hT.nodup i2 u2 h2.1
    have hid := hI.uniq i1 i2 u1 u2 g1 g2 (h1.2.trans h2.2.symm) heq
    subst hid
    rw [g1] at g2
    cases g2
    rfl
  rw [List.perm_ext_iff_of_nodup hnd (nodup_occupiedSeats sct)]
  intro k
  rw [mem_occupiedSeats, ← occupiedAt_of_mget s name sct k hg]
  simp only [List.mem_map]
  constructor
  · rintro ⟨u, hu, rfl⟩
    obtain ⟨id, hgu, hsec⟩ := (mem_ticketsIn s hT.nodup name u).mp hu
    rw [← hsec]
    exact hI.live id u hgu
  · intro hocc
    obtain ⟨id, u, hgu, hsec, hseat⟩ := hI.held name k hocc
    exact ⟨u, (mem_ticketsIn s hT.nodup name u).mpr ⟨id, hgu, hsec⟩, hseat⟩

theorem ticketsIn_ids_nodup (s : server) (hI : Inv s) (hT : Tidy s) (name : String) :
    ((ticketsIn s name).map fun u => u.TicketID).Nodup := by
  have hsub : ((s.users.filter fun p => p.2.Section = name).map Prod.fst).Nodup :=
    List.Nodup.sublist ((List.filter_sublist _).map _) hT.nodup
  have heq : (ticketsIn s name).map (fun u => u.TicketID) =
      (s.users.filter fun p => p.2.Section = name).map Prod.fst := by
    simp only [ticketsIn, List.map_map]
    apply List.map_congr_left
    rintro ⟨id, u⟩ hmem
    have hmem' := (List.mem_filter.mp hmem).1
    exact hI.ids id u (mget_of_mem _ hT.nodup id u hmem')
  rw [heq]
  exact hsub

/-- Claim C15 (ViewSeats lists exactly the live tickets of the section). In every
reachable state, for a configured section `name` and whatever order the range
over the users table takes, `ViewSeats` returns a nil error and the state
unchanged, and its list is, up to order, the entries
`(FirstName ++ " " ++ LastName, Seat)` of the tickets of `ticketsIn`: these are
the live tickets whose `Section` is `name`, each ticket id once. The length of
the list is the number of occupied seats of the section; the list is empty
when no seat of the section is occupied and not empty when a live ticket sits
in the section. -/
theorem C15_view_seats_lists_section (s : server) (hR : Reachable s) (order : List String)
    (hord : order.Perm (mkeys s.users)) (name : String) (sct : Section)
    (hg : mget s.sections name = some sct) :
    ∃ seats, ViewSeats s order { Section := name } = (({ Seats := seats }, none), s) ∧
      seats.Perm ((ticketsIn s name).map seatEntry) ∧
      (∀ u, u ∈ ticketsIn s name ↔ ∃ id, mget s.users id = some u ∧ u.Section = name) ∧
      ((ticketsIn s name).map fun u => u.TicketID).Nodup ∧
      seats.length = occupiedIn s name ∧
      ((∀ k, sct.occ k = false) → seats = []) ∧
      (∀ id u, mget s.users id = some u → u.Section = name → seats ≠ []) := by
  have hI := hR.inv
  have hT := hR.tidy
  have hperm : (rangeUsers s.users name order []).Perm ((ticketsIn s name).map seatEntry) := by
    rw [rangeUsers_eq, List.nil_append]
    have := hord.filterMap (listed s.users name)
    rw [listed_keys name s.users hT.nodup] at this
    exact this
  have hlen : (rangeUsers s.users name order []).length = occupiedIn s name := by
    have h1 := hperm.length_eq
    have h2 := (seats_ticketsIn_perm s hI hT name sct hg).length_eq
    simp only [List.length_map] at h1 h2
    rw [h1, h2]
    simp [occupiedIn, hg]
  refine ⟨rangeUsers s.users name order [], rfl, hperm, mem_ticketsIn s hT.nodup name,
    ticketsIn_ids_nodup s hI hT name, hlen, ?_, ?_⟩
  · intro hfree
    have hnil : occupiedSeats sct = [] := by
      rw [List.eq_nil_iff_forall_not_mem]
      intro k hk
      rw [mem_occupiedSeats, hfree k] at hk
      cases hk
    rw [← List.length_eq_zero, hlen]
    simp [occupiedIn, hg, hnil]
  · intro id u hu hsec hnil
    have hmem : u ∈ ticketsIn s name := (mem_ticketsIn s hT.nodup name u).mpr ⟨id, hu, hsec⟩
    have hlen0 := hperm.length_eq
    rw [hnil] at hlen0
    simp only [List.length_nil, List.length_map] at hlen0
    have : ticketsIn s name = [] := List.length_eq_zero.mp hlen0.symm
    rw [this] at hmem
    cases hmem

theorem C15_view_seats_lists_section_witness :
    Reachable twoTickets ∧
    [tid 1, tid 0].Perm (mkeys twoTickets.users) ∧
    mget twoTickets.sections "A" = some
      { CurrentSeat := 3, MaxSeats := 10, Occupied := [(1, true), (2, true)] } ∧
    ∃ seats, ViewSeats twoTickets [tid 1, tid 0] { Section := "A" } =
        (({ Seats := seats }, none), twoTickets) ∧
      seats.Perm ((ticketsIn twoTickets "A").map seatEntry) ∧
      (∀ u, u ∈ ticketsIn twoTickets "A" ↔
        ∃ id, mget twoTickets.users id = some u ∧ u.Section = "A") ∧
      ((ticketsIn twoTickets "A").map fun u => u.TicketID).Nodup ∧
      seats.length = occupiedIn twoTickets "A" ∧
      ((∀ k, Section.occ
        { CurrentSeat := 3, MaxSeats := 10, Occupied := [(1, true), (2, true)] } k = false) →
        seats = []) ∧
      (∀ id u, mget twoTickets.users id = some u → u.Section = "A" → seats ≠ []) :=
  ⟨twoTickets_reachable, List.Perm.swap (tid 0) (tid 1) [], by decide,
    C15_view_seats_lists_section twoTickets twoTickets_reachable [tid 1, tid 0]
      (List.Perm.swap (tid 0) (tid 1) []) "A"
      { CurrentSeat := 3, MaxSeats := 10, Occupied := [(1, true), (2, true)] } (by decide)⟩

/-! ## Section names of live tickets, and calls that always return -/

theorem live_section_configured (s : server) (hI : Inv s) (id : String) (u : User)
    (hu : mget s.users id = some u) : u.Section ∈ mkeys s.sections := by
  obtain ⟨sct, hg, _⟩ := mget_of_occupiedAt _ _ _ (hI.live id u hu)
  exact mem_mkeys_of_mget _ _ _ hg

theorem RemoveUser_returns (s : server) (hI : Inv s) (req : RemoveUserRequest) :
    ∃ r, RemoveUser s req = some r := by
  cases hu : mget s.users req.TicketId with
  | none => exact ⟨_, RemoveUser_absent s req.TicketId hu⟩
  | some u =>
    obtain ⟨sct, hg, _⟩ := mget_of_occupiedAt _ _ _ (hI.live _ u hu)
    exact ⟨_, RemoveUser_live s req.TicketId u sct hu hg⟩

theorem ModifySeat_returns (s : server) (hI : Inv s) (req : ModifySeatRequest) :
    ∃ r, ModifySeat s req = some r := by
  cases hu : mget s.users req.TicketId with
  | none => exact ⟨_, ModifySeat_absent s req hu⟩
  | some u =>
    by_cases hrej : ∀ sct, mget s.sections req.Section = some sct →
        req.Seat > sct.MaxSeats ∨ sct.occ req.Seat = true
    · exact ⟨_, ModifySeat_rejected s req u hu hrej⟩
    · push_neg at hrej
      obtain ⟨sct, hg, hle, hocc⟩ := hrej
      have hfree : sct.occ req.Seat = false := by simpa using hocc
      obtain ⟨prev, hp, _⟩ := mget_of_occupiedAt _ _ _ (hI.live _ u hu)
      exact ⟨_, ModifySeat_accepted s req u sct prev hu hg (by omega) hfree hp⟩

theorem seatZero_reachable : Reachable seatZero := by
  have h : ModifySeat oneTicket { TicketId := tid 0, Section := "A", Seat := 0 } =
      some (({ Message := "Seat modified successfully", PreviousSection := "A",
               PreviousSeat := 1, UpdatedSection := "A", UpdatedSeat := 0 }, none),
            seatZero) := by decide
  exact Reachable.modifySeat oneTicket _ _ oneTicket_reachable h

/-- Claim C16 as stated fails: for the section name "C", which is not configured,
`ViewSeats` returns an empty list and a nil error, not a failure. -/
theorem C16_unknown_section_counterexample :
    Reachable oneTicket ∧ "C" ∉ mkeys oneTicket.sections ∧
    ViewSeats oneTicket [tid 0] { Section := "C" } =
      (({ Seats := [] }, none), oneTicket) :=
  ⟨oneTicket_reachable, by decide, by decide⟩

/-- Claim C16, amended (ViewSeats never fails). In every reachable state, for a
section name that is not configured and whatever keys the range visits,
`ViewSeats` returns a nil error, an empty list and the state unchanged. -/
theorem C16_unknown_section_lists_nothing (s : server) (hR : Reachable s)
    (order : List String) (name : String) (hname : name ∉ mkeys s.sections) :
    ViewSeats s order { Section := name } = (({ Seats := [] }, none), s) := by
  have hI := hR.inv
  have hnil : rangeUsers s.users name order [] = [] := by
    rw [rangeUsers_eq, List.nil_append, List.eq_nil_iff_forall_not_mem]
    intro a ha
    obtain ⟨id, _, hid⟩ := List.mem_filterMap.mp ha
    unfold listed at hid
    cases hu : mget s.users id with
    | none => simp [hu] at hid
    | some u =>
      have hsec : u.Section ≠ name := by
        intro e
        rw [← e] at hname
        exact hname (live_section_configured s hI id u hu)
      simp [hu, hsec] at hid
  simp [ViewSeats, hnil]

theorem C16_unknown_section_lists_nothing_witness :
    Reachable twoTickets ∧ "Z" ∉ mkeys twoTickets.sections ∧
    ViewSeats twoTickets [tid 0, tid 1] { Section := "Z" } =
      (({ Seats := [] }, none), twoTickets) :=
  ⟨twoTickets_reachable, by decide,
    C16_unknown_section_lists_nothing twoTickets twoTickets_reachable [tid 0, tid 1] "Z"
      (by decide)⟩

/-- Claim C17 (seat range), the code after a move to seat 0. The state after one
purchase and `ModifySeat` of its ticket to seat 0 of section A is reachable;
in it the live ticket holds seat 0 of A and seat 0 of A is marked occupied,
while the seats of A are `[1, 10]`. -/
theorem C17_seat_zero_is_reachable :
    Reachable seatZero ∧
    assignment seatZero (tid 0) = some ("A", 0) ∧
    occupiedAt seatZero "A" 0 = true ∧
    (mget seatZero.sections "A").map (fun sct => sct.MaxSeats) = some 10 :=
  ⟨seatZero_reachable, by decide, by decide, by decide⟩

/-- Claim C20 (section lookups never fail). In every reachable state the section
names are A and B, each section has `MaxSeats = 10`, the `Section` of every
live ticket is one of the section names, and every `RemoveUser` and every
`ModifySeat` call returns, without a nil dereference, in a state that is
reachable again. -/
theorem C20_section_lookups_never_fail (s : server) (hR : Reachable s) :
    mkeys s.sections = ["A", "B"] ∧
    (∀ name sct, mget s.sections name = some sct → sct.MaxSeats = 10) ∧
    (∀ id u, mget s.users id = some u →
      (u.Section = "A" ∨ u.Section = "B") ∧ ∃ sct, mget s.sections u.Section = some sct) ∧
    (∀ req, ∃ r, RemoveUser s req = some r ∧ Reachable r.2) ∧
    (∀ req, ∃ r, ModifySeat s req = some r ∧ Reachable r.2) := by
  have hI := hR.inv
  refine ⟨hI.keys, fun name sct h => (hI.cfg name sct h).1, ?_, ?_, ?_⟩
  · intro id u hu
    have hmem := live_section_configured s hI id u hu
    refine ⟨?_, mget_of_mem_mkeys _ _ hmem⟩
    rw [hI.keys] at hmem
    simpa using hmem
  · intro req
    obtain ⟨r, hr⟩ := RemoveUser_returns s hI req
    exact ⟨r, hr, Reachable.removeUser s req r hR hr⟩
  · intro req
    obtain ⟨r, hr⟩ := ModifySeat_returns s hI req
    exact ⟨r, hr, Reachable.modifySeat s req r hR hr⟩

theorem C20_section_lookups_never_fail_witness :
    Reachable seatZero ∧
    (mkeys seatZero.sections = ["A", "B"] ∧
    (∀ name sct, mget seatZero.sections name = some sct → sct.MaxSeats = 10) ∧
    (∀ id u, mget seatZero.users id = some u →
      (u.Section = "A" ∨ u.Section = "B") ∧
        ∃ sct, mget seatZero.sections u.Section = some sct) ∧
    (∀ req, ∃ r, RemoveUser seatZero req = some r ∧ Reachable r.2) ∧
    (∀ req, ∃ r, ModifySeat seatZero req = some r ∧ Reachable r.2)) :=
  ⟨seatZero_reachable, C20_section_lookups_never_fail seatZero seatZero_reachable⟩

/-! ## Cursors along a run -/

theorem cursor_eq_getD (s : server) (name : String) :
    cursor s name = (cursorOf s name).getD 0 := by
  unfold cursor cursorOf
  cases mget s.sections name <;> rfl

theorem Issued_transfer (s s' : server) (l : List (String × Int))
    (h : ∀ name, cursorOf s' name = cursorOf s name) (hS : Issued s l) : Issued s' l where
  count := fun name c hc => hS.count name c (by rw [← h]; exact hc)
  below := fun name c hc => hS.below name c (by rw [← h]; exact hc)
  known := fun name hc => hS.known name (by rw [← h]; exact hc)
  sorted := hS.sorted
  total := by
    rw [cursor_eq_getD, cursor_eq_getD, h, h, ← cursor_eq_getD, ← cursor_eq_getD]
    exact hS.total

theorem cursorOf_RemoveUser (s : server) (req : RemoveUserRequest)
    (r : (RemoveUserResponse × Option String) × server) (h : RemoveUser s req = some r) :
    ∀ name, cursorOf r.2 name = cursorOf s name := by
  intro name
  cases hu : mget s.users req.TicketId with
  | none =>
    rw [RemoveUser_absent s req.TicketId hu] at h
    cases h
    rfl
  | some u =>
    cases hg : mget s.sections u.Section with
    | none => simp [RemoveUser, hu, hg] at h
    | some sct =>
      rw [RemoveUser_live s req.TicketId u sct hu hg] at h
      cases h
      simp only [cursorOf, mget_mset]
      by_cases hn : name = u.Section
      · simp [hn, hg, Section.release]
      · simp [hn]

theorem cursorOf_ModifySeat (s : server) (req : ModifySeatRequest)
    (r : (ModifySeatResponse × Option String) × server) (h : ModifySeat s req = some r) :
    ∀ name, cursorOf r.2 name = cursorOf s name := by
  intro name
  cases hu : mget s.users req.TicketId with
  | none =>
    rw [ModifySeat_absent s req hu] at h
    cases h
    rfl
  | some u =>
    by_cases hrej : ∀ sct, mget s.sections req.Section = some sct →
        req.Seat > sct.MaxSeats ∨ sct.occ req.Seat = true
    · rw [ModifySeat_rejected s req u hu hrej] at h
      cases h
      rfl
    · push_neg at hrej
      obtain ⟨sct, hg, hle, hocc⟩ := hrej
      have hfree : sct.occ req.Seat = false := by simpa using hocc
      have hnot : ¬ (req.Seat > sct.MaxSeats ∨ sct.occ req.Seat = true) := by
        simp [hfree]; omega
      cases hp : mget s.sections u.Section with
      | none => simp [ModifySeat, hu, hg, hp, hnot] at h
      | some prev =>
        rw [ModifySeat_accepted s req u sct prev hu hg (by omega) hfree hp] at h
        cases h
        simp only [cursorOf, movedSections, mget_mset]
        by_cases hn : name = req.Section
        · rw [if_pos hn, hn, hg]
          by_cases hsd : u.Section = req.Section
          · rw [if_pos hsd]
            rw [hsd, hg] at hp
            cases hp
            rfl
          · rw [if_neg hsd]
            rfl
        · rw [if_neg hn]
          by_cases hn2 : name = u.Section
          · rw [if_pos hn2, hn2, hp]
            rfl
          · rw [if_neg hn2]

/-- One `PurchaseTicket` call when no key is the empty string: it fails and
leaves the state, or it issues a seat at or past the cursor of a section and
moves that cursor just past the seat. -/
theorem PurchaseTicket_step (s : server) (order : List String) (ticketID : String)
    (req : PurchaseRequest) (hne : "" ∉ order) :
    ((PurchaseTicket s order ticketID req).1.2 ≠ none ∧
      (PurchaseTicket s order ticketID req).2 = s ∧
      issued (PurchaseTicket s order ticketID req) = []) ∨
    (∃ sec sct seat, mget s.sections sec = some sct ∧ sct.CurrentSeat ≤ seat ∧
      seat ≤ sct.MaxSeats ∧
      (PurchaseTicket s order ticketID req).1.2 = none ∧
      assigned (PurchaseTicket s order ticketID req) = some (sec, seat) ∧
      issued (PurchaseTicket s order ticketID req) = [(sec, seat)] ∧
      ∀ name, cursorOf (PurchaseTicket s order ticketID req).2 name =
        if name = sec then some (seat + 1) else cursorOf s name) := by
  rcases PurchaseTicket_cases s order ticketID req hne with
    ⟨_, h⟩ | ⟨pre, sec, post, sct, seat, _, _, hg, hf, h⟩
  · left
    rw [h]
    exact ⟨by simp, rfl, by simp [issued]⟩
  · right
    obtain ⟨hlo, hhi, _, _⟩ := findSeat_some sct seat hf
    have hasg : assigned (PurchaseTicket s order ticketID req) = some (sec, seat) := by
      rw [h]
      simp [assigned, assignment, mget_mset_same, ticketOf]
    refine ⟨sec, sct, seat, hg, hlo, hhi, by rw [h], hasg, ?_, ?_⟩
    · have herr : (PurchaseTicket s order ticketID req).1.2 = none := by rw [h]
      simp [issued, herr, hasg]
    · intro name
      rw [h]
      simp only [cursorOf, mget_mset]
      by_cases hn : name = sec
      · simp [hn, Section.take]
      · simp [hn]

theorem issuedIn_cons (a : String × Int) (l : List (String × Int)) (name : String) :
    issuedIn (a :: l) name = if a.1 = name then a.2 :: issuedIn l name else issuedIn l name := by
  unfold issuedIn
  by_cases h : a.1 = name <;> simp [List.filter_cons, h]

theorem Issued_NewServer : Issued NewServer [] where
  count := by
    intro name c hc
    simp only [cursorOf, NewServer, mget] at hc
    split at hc
    · cases hc; simp [issuedIn]
    · split at hc
      · cases hc; simp [issuedIn]
      · cases hc
  below := by intro name c _ x hx; simp [issuedIn] at hx
  known := by intro name _; simp [issuedIn]
  sorted := by intro name; simp [issuedIn]
  total := by decide

/-- A successful purchase keeps the issued seats under the cursors. -/
theorem Issued_purchase (s s' : server) (l : List (String × Int)) (sec : String)
    (sct : Section) (seat : Int) (hS : Issued s l) (hAB : sec = "A" ∨ sec = "B")
    (hg : mget s.sections sec = some sct) (hlo : sct.CurrentSeat ≤ seat)
    (hcur : ∀ name, cursorOf s' name = if name = sec then some (seat + 1) else cursorOf s name) :
    Issued s' ((sec, seat) :: l) := by
  have hc0 : cursorOf s sec = some sct.CurrentSeat := by simp [cursorOf, hg]
  have hcnt := hS.count sec _ hc0
  have hbel := hS.below sec _ hc0
  refine ⟨?_, ?_, ?_, ?_, ?_⟩
  · intro name c hc
    rw [hcur] at hc
    rw [issuedIn_cons]
    by_cases hn : name = sec
    · subst hn
      simp only [if_true, Option.some.injEq] at hc
      simp only [if_true, List.length_cons]
      push_cast
      omega
    · simp only [hn, if_false] at hc
      have : ¬ sec = name := fun e => hn e.symm
      simp only [this, if_false]
      exact hS.count name c hc
  · intro name c hc x hx
    rw [hcur] at hc
    rw [issuedIn_cons] at hx
    by_cases hn : name = sec
    · subst hn
      simp only [if_true, Option.some.injEq] at hc
      simp only [if_true, List.mem_cons] at hx
      rcases hx with hx | hx
      · omega
      · have := hbel x hx
        omega
    · simp only [hn, if_false] at hc
      have : ¬ sec = name := fun e => hn e.symm
      simp only [this, if_false] at hx
      exact hS.below name c hc x hx
  · intro name hc
    rw [hcur] at hc
    rw [issuedIn_cons]
    by_cases hn : name = sec
    · simp [hn] at hc
    · simp only [hn, if_false] at hc
      have : ¬ sec = name := fun e => hn e.symm
      simp only [this, if_false]
      exact hS.known name hc
  · intro name
    rw [issuedIn_cons]
    by_cases hn : sec = name
    · subst hn
      simp only [if_true, List.pairwise_cons]
      refine ⟨?_, hS.sorted sec⟩
      intro x hx
      have := hbel x hx
      omega
    · simp only [hn, if_false]
      exact hS.sorted name
  · have htot := hS.total
    have hA := hcur "A"
    have hB := hcur "B"
    rw [cursor_eq_getD, cursor_eq_getD, hA, hB]
    rw [cursor_eq_getD, cursor_eq_getD] at htot
    simp only [List.length_cons]
    push_cast
    rcases hAB with e | e
    · subst e
      rw [if_pos rfl, if_neg (by decide)]
      rw [hc0] at htot
      simp only [Option.getD_some] at htot ⊢
      omega
    · subst e
      rw [if_neg (by decide), if_pos rfl]
      rw [hc0] at htot
      simp only [Option.getD_some] at htot ⊢
      omega

theorem Run.reachable {s : server} {l : List (String × Int)} (h : Run s l) : Reachable s := by
  induction h with
  | init => exact Reachable.init
  | purchase s l order ticketID req _ hp hf ih => exact Reachable.purchase s order ticketID req ih hp hf
  | getReceipt s l req _ ih => exact Reachable.getReceipt s req ih
  | viewSeats s l order req _ ih => exact Reachable.viewSeats s order req ih
  | removeUser s l req r _ hr ih => exact Reachable.removeUser s req r ih hr
  | modifySeat s l req r _ hr ih => exact Reachable.modifySeat s req r ih hr

theorem Run.issued {s : server} {l : List (String × Int)} (h : Run s l) : Issued s l := by
  induction h with
  | init => exact Issued_NewServer
  | purchase s l order ticketID req hrun hp hf ih =>
    have hI := hrun.reachable.inv
    rcases PurchaseTicket_step s order ticketID req
        (perm_keys_no_empty s order hI.keys hp) with
      ⟨_, h2, h3⟩ | ⟨sec, sct, seat, hg, hlo, _, _, _, h3, hcur⟩
    · rw [h2, h3]
      exact ih
    · rw [h3]
      have hAB : sec = "A" ∨ sec = "B" := by
        have := mem_mkeys_of_mget _ _ _ hg
        rw [hI.keys] at this
        simpa using this
      exact Issued_purchase s _ l sec sct seat ih hAB hg hlo hcur
  | getReceipt s l req _ ih =>
    have : (GetReceipt s req).2 = s := by
      unfold GetReceipt
      split <;> rfl
    rw [this]; exact ih
  | viewSeats s l order req _ ih => exact ih
  | removeUser s l req r _ hr ih =>
    exact Issued_transfer s r.2 l (cursorOf_RemoveUser s req r hr) ih
  | modifySeat s l req r _ hr ih =>
    exact Issued_transfer s r.2 l (cursorOf_ModifySeat s req r hr) ih

theorem cursor_le_eleven (s : server) (hI : Inv s) (name : String) : cursor s name ≤ 11 := by
  unfold cursor
  cases hg : mget s.sections name with
  | none => simp
  | some sct => exact (hI.cfg name sct hg).2.2

theorem cursor_of_cursorOf (s s' : server) (name : String)
    (h : cursorOf s' name = cursorOf s name) : cursor s' name = cursor s name := by
  rw [cursor_eq_getD, cursor_eq_getD, h]

theorem run_twoTickets : Run twoTickets [("A", 2), ("A", 1)] :=
  Run.purchase oneTicket [("A", 1)] ["A", "B"] (tid 1) bob
    (Run.purchase NewServer [] ["A", "B"] (tid 0) bob Run.init (List.Perm.refl _) (by decide))
    (by decide) (by decide)

/-- Claim C19 (lifetime allocation bound). In every state reached by a run of
calls from `NewServer`: the cursor of each section is in `[1, MaxSeats + 1]`; no
call lowers a cursor, and `GetReceipt`, `ViewSeats`, `RemoveUser` and
`ModifySeat` leave every cursor as it is; a `PurchaseTicket` call that returns
a nil error issues a seat at or past the cursor of its section and sets that
cursor to the seat plus one; the seats issued in one section over the run are
strictly increasing in time; at most 10 seats were issued in any one section
and at most 20 in all. -/
theorem C19_lifetime_allocation_bound (s : server) (l : List (String × Int)) (h : Run s l) :
    (∀ name sct, mget s.sections name = some sct →
      1 ≤ sct.CurrentSeat ∧ sct.CurrentSeat ≤ sct.MaxSeats + 1) ∧
    (∀ name,
      (∀ order ticketID req, order.Perm (mkeys s.sections) →
        cursor s name ≤ cursor (PurchaseTicket s order ticketID req).2 name) ∧
      (∀ req, cursor (GetReceipt s req).2 name = cursor s name) ∧
      (∀ order req, cursor (ViewSeats s order req).2 name = cursor s name) ∧
      (∀ req r, RemoveUser s req = some r → cursor r.2 name = cursor s name) ∧
      (∀ req r, ModifySeat s req = some r → cursor r.2 name = cursor s name)) ∧
    (∀ order ticketID req, order.Perm (mkeys s.sections) →
      (PurchaseTicket s order ticketID req).1.2 = none →
      ∃ sec seat, assigned (PurchaseTicket s order ticketID req) = some (sec, seat) ∧
        cursor s sec ≤ seat ∧
        cursor (PurchaseTicket s order ticketID req).2 sec = seat + 1) ∧
    (∀ name, (issuedIn l name).Pairwise fun x y => x > y) ∧
    (∀ name, (issuedIn l name).length ≤ 10) ∧
    l.length ≤ 20 := by
  have hI := h.reachable.inv
  have hS := h.issued
  refine ⟨?_, ?_, ?_, hS.sorted, ?_, ?_⟩
  · intro name sct hg
    obtain ⟨h1, h2, h3⟩ := hI.cfg name sct hg
    omega
  · intro name
    refine ⟨?_, ?_, fun _ _ => rfl, ?_, ?_⟩
    · intro order ticketID req hp
      rcases PurchaseTicket_step s order ticketID req
          (perm_keys_no_empty s order hI.keys hp) with
        ⟨_, h2, _⟩ | ⟨sec, sct, seat, hg, hlo, _, _, _, _, hcur⟩
      · rw [h2]
      · rw [cursor_eq_getD, cursor_eq_getD, hcur]
        by_cases hn : name = sec
        · subst hn
          simp only [if_true, Option.getD_some, cursorOf, hg, Option.map_some']
          omega
        · simp only [hn, if_false]
          exact le_refl _
    · intro req
      have : (GetReceipt s req).2 = s := by
        unfold GetReceipt
        split <;> rfl
      rw [this]
    · intro req r hr
      exact cursor_of_cursorOf s r.2 name (cursorOf_RemoveUser s req r hr name)
    · intro req r hr
      exact cursor_of_cursorOf s r.2 name (cursorOf_ModifySeat s req r hr name)
  · intro order ticketID req hp hok
    rcases PurchaseTicket_step s order ticketID req
        (perm_keys_no_empty s order hI.keys hp) with
      ⟨h1, _, _⟩ | ⟨sec, sct, seat, hg, hlo, _, _, hasg, _, hcur⟩
    · exact absurd hok h1
    · refine ⟨sec, seat, hasg, ?_, ?_⟩
      · rw [cursor_of_mget s sec sct hg]
        exact hlo
      · rw [cursor_eq_getD, hcur]
        simp
  · intro name
    cases hc : cursorOf s name with
    | none =>
      rw [hS.known name hc]
      simp
    | some c =>
      have h1 := hS.count name c hc
      have h2 := cursor_le_eleven s hI name
      rw [cursor_eq_getD, hc] at h2
      simp only [Option.getD_some] at h2
      omega
  · have h1 := hS.total
    have h2 := cursor_le_eleven s hI "A"
    have h3 := cursor_le_eleven s hI "B"
    omega

theorem C19_lifetime_allocation_bound_witness :
    Run twoTickets [("A", 2), ("A", 1)] ∧
    ((∀ name sct, mget twoTickets.sections name = some sct →
      1 ≤ sct.CurrentSeat ∧ sct.CurrentSeat ≤ sct.MaxSeats + 1) ∧
    (∀ name,
      (∀ order ticketID req, order.Perm (mkeys twoTickets.sections) →
        cursor twoTickets name ≤ cursor (PurchaseTicket twoTickets order ticketID req).2 name) ∧
      (∀ req, cursor (GetReceipt twoTickets req).2 name = cursor twoTickets name) ∧
      (∀ order req, cursor (ViewSeats twoTickets order req).2 name = cursor twoTickets name) ∧
      (∀ req r, RemoveUser twoTickets req = some r → cursor r.2 name = cursor twoTickets name) ∧
      (∀ req r, ModifySeat twoTickets req = some r →
        cursor r.2 name = cursor twoTickets name)) ∧
    (∀ order ticketID req, order.Perm (mkeys twoTickets.sections) →
      (PurchaseTicket twoTickets order ticketID req).1.2 = none →
      ∃ sec seat, assigned (PurchaseTicket twoTickets order ticketID req) = some (sec, seat) ∧
        cursor twoTickets sec ≤ seat ∧
        cursor (PurchaseTicket twoTickets order ticketID req).2 sec = seat + 1) ∧
    (∀ name, (issuedIn [("A", 2), ("A", 1)] name).Pairwise fun x y => x > y) ∧
    (∀ name, (issuedIn [("A", 2), ("A", 1)] name).length ≤ 10) ∧
    [(("A" : String), (2 : Int)), ("A", 1)].length ≤ 20) :=
  ⟨run_twoTickets, C19_lifetime_allocation_bound twoTickets [("A", 2), ("A", 1)] run_twoTickets⟩

end TrainBooking
